import Mathlib

/-!
Verification of the Adventcord notification dispatch engine.

This file shallowly embeds the dispatch-relevant parts of the repository:

* the delivery clients `sendDiscordWebhook` (src/lib/discord.ts) and
  `sendSlackWebhook` (src/lib/slack.ts), as pure classification functions over
  the outcome of the underlying HTTP POST;
* the message formatters `sortLeaderboard`, `formatPosition`, `getMemberName`
  (src/lib/aoc.ts), `formatLeaderboardEmbed` and
  `formatPuzzleNotificationEmbed` (src/lib/discord.ts);
* the leaderboard URL validator `validateLeaderboardUrl`
  (src/lib/validation.ts), over a small model of the WHATWG URL pieces the
  code reads (hostname, pathname, query);
* the cron orchestrator (scripts/cron.ts): `isAocSeason`, the cached
  `getLeaderboard`, `sendPuzzleNotifications`, and the main dispatch run.

Side effects (database reads/writes, log inserts, HTTP calls, timers) are made
explicit: the database and audit log are threaded as state, and the network is
an environment of functions giving every endpoint's response.  JavaScript
truthiness checks on optional strings are modelled by `jsTruthyStr`/`jsOr`.
-/

namespace Adventcord

/-! ## Leaderboard data model (src/lib/aoc.ts)

An `AocMember` as parsed from the AoC JSON API: `name` may be `null`, and the
code treats the empty string as missing as well (JS truthiness).  JS numbers
are modelled as `Int`.  `AocLeaderboard.members` is a `Record<string, AocMember>`,
modelled as an association list in object-key order; `Object.values` is
`List.map Prod.snd`. -/

structure AocMember where
  id : Int
  name : Option String
  stars : Int
  local_score : Int
  deriving DecidableEq, Repr

structure AocLeaderboard where
  event : String
  members : List (String × AocMember)
  deriving DecidableEq, Repr

/-! ## Delivery client (src/lib/discord.ts `sendDiscordWebhook`,
src/lib/slack.ts `sendSlackWebhook`)

The clients POST the payload with the shared `fetcher` (src/lib/fetch.ts,
better-fetch with 3 linear retries and a 30s timeout) and classify the result.
`DeliveryResponse` is what the destination endpoint ultimately does;
`fetcherOutcome` models the better-fetch wrapper, which reports a 2xx response
as data with no error, a non-2xx response as an error carrying its status, and
a transport-level failure as an error with no status.  `FetchOutcome.thrown`
models the `catch` branch of the clients (an exception escaping the fetch
call), with `none` standing for a non-`Error` throw. -/

inductive DeliveryResponse where
  | http (status : Nat) (statusText : String)
  | transportError (message : String)
  deriving DecidableEq, Repr

inductive FetchOutcome where
  | ok
  | httpError (status : Option Nat) (message : String)
  | thrown (message : Option String)
  deriving DecidableEq, Repr

def fetcherOutcome : DeliveryResponse → FetchOutcome
  | .http status text =>
      if 200 ≤ status ∧ status < 300 then .ok else .httpError (some status) text
  | .transportError msg => .httpError none msg

/-- `SendWebhookResult` from src/lib/discord.ts / src/lib/slack.ts.  The TS
optional fields `error?` and `webhookDeleted?` are `Option`s; a field the code
leaves off is `none`. -/
structure SendWebhookResult where
  success : Bool
  error : Option String
  webhookDeleted : Option Bool
  deriving DecidableEq, Repr

/-- `sendDiscordWebhook` (src/lib/discord.ts): classification of one POST to a
Discord webhook.  `response.error` with status 404 means the webhook was
deleted; any other error is transient; no error is success; a thrown exception
is caught and reported as a transient failure. -/
def sendDiscordWebhook : FetchOutcome → SendWebhookResult
  | .ok => { success := true, error := none, webhookDeleted := none }
  | .httpError status message =>
      if status = some 404 then
        { success := false
          error := some "Webhook not found (deleted)"
          webhookDeleted := some true }
      else
        { success := false
          error := some ("Discord API error: " ++ message)
          webhookDeleted := none }
  | .thrown msg =>
      { success := false
        error := some ("Failed to send webhook: " ++ msg.getD "Unknown error")
        webhookDeleted := none }

/-- `sendSlackWebhook` (src/lib/slack.ts): same shape as the Discord client,
but both 404 and 410 retire the destination. -/
def sendSlackWebhook : FetchOutcome → SendWebhookResult
  | .ok => { success := true, error := none, webhookDeleted := none }
  | .httpError status message =>
      if status = some 404 ∨ status = some 410 then
        { success := false
          error := some "Webhook not found (deleted or invalid)"
          webhookDeleted := some true }
      else
        { success := false
          error := some ("Slack API error: " ++ message)
          webhookDeleted := none }
  | .thrown msg =>
      { success := false
        error := some ("Failed to send webhook: " ++ msg.getD "Unknown error")
        webhookDeleted := none }

/-! Outcome classes as the spec describes them: success, permanent failure
(destination gone, `webhookDeleted` set, human-readable message), transient
failure (message, destination kept). -/

def IsSuccessResult (r : SendWebhookResult) : Prop :=
  r.success = true ∧ r.error = none ∧ r.webhookDeleted = none

def IsPermanentFailure (r : SendWebhookResult) : Prop :=
  r.success = false ∧ r.webhookDeleted = some true ∧
    ∃ m, r.error = some m ∧ m ≠ ""

def IsTransientFailure (r : SendWebhookResult) : Prop :=
  r.success = false ∧ r.webhookDeleted = none ∧
    ∃ m, r.error = some m ∧ m ≠ ""

instance (r : SendWebhookResult) : Decidable (IsSuccessResult r) := by
  unfold IsSuccessResult; infer_instance

instance (r : SendWebhookResult) : Decidable (IsPermanentFailure r) := by
  unfold IsPermanentFailure
  exact instDecidableAnd

instance (r : SendWebhookResult) : Decidable (IsTransientFailure r) := by
  unfold IsTransientFailure
  exact instDecidableAnd

/-- Helper: a string that starts with a non-empty prefix is non-empty. -/
theorem append_ne_empty_left (p m : String) (hp : 0 < p.length) : p ++ m ≠ "" := by
  intro h
  have h0 : (p ++ m).length = (0 : Nat) := by rw [h]; rfl
  rw [String.length_append] at h0
  omega

/-- Helper: every result the Discord client can return falls in exactly one of
the three outcome classes. -/
theorem sendDiscordWebhook_cases (o : FetchOutcome) :
    (IsSuccessResult (sendDiscordWebhook o) ∧
        ¬IsPermanentFailure (sendDiscordWebhook o) ∧
        ¬IsTransientFailure (sendDiscordWebhook o)) ∨
      (IsPermanentFailure (sendDiscordWebhook o) ∧
        ¬IsSuccessResult (sendDiscordWebhook o) ∧
        ¬IsTransientFailure (sendDiscordWebhook o)) ∨
      (IsTransientFailure (sendDiscordWebhook o) ∧
        ¬IsSuccessResult (sendDiscordWebhook o) ∧
        ¬IsPermanentFailure (sendDiscordWebhook o)) := by
  cases o with
  | ok =>
      left
      refine ⟨⟨rfl, rfl, rfl⟩, ?_, ?_⟩ <;>
        rintro ⟨h, -⟩ <;> simp [sendDiscordWebhook] at h
  | httpError status message =>
      by_cases h : status = some 404
      · right; left
        subst h
        refine ⟨⟨rfl, rfl, "Webhook not found (deleted)", rfl, by decide⟩, ?_, ?_⟩
        · rintro ⟨h, -⟩; simp [sendDiscordWebhook] at h
        · rintro ⟨-, h, -⟩; simp [sendDiscordWebhook] at h
      · right; right
        refine ⟨⟨?_, ?_, "Discord API error: " ++ message, ?_, ?_⟩, ?_, ?_⟩
        · simp [sendDiscordWebhook, h]
        · simp [sendDiscordWebhook, h]
        · simp [sendDiscordWebhook, h]
        · exact append_ne_empty_left _ _ (by decide)
        · rintro ⟨hs, -⟩; simp [sendDiscordWebhook, h] at hs
        · rintro ⟨-, hd, -⟩; simp [sendDiscordWebhook, h] at hd
  | thrown msg =>
      right; right
      refine ⟨⟨rfl, rfl, "Failed to send webhook: " ++ msg.getD "Unknown error",
        rfl, ?_⟩, ?_, ?_⟩
      · exact append_ne_empty_left _ _ (by decide)
      · rintro ⟨hs, -⟩; simp [sendDiscordWebhook] at hs
      · rintro ⟨-, hd, -⟩; simp [sendDiscordWebhook] at hd

/-- Helper: the same trichotomy for the Slack client. -/
theorem sendSlackWebhook_cases (o : FetchOutcome) :
    (IsSuccessResult (sendSlackWebhook o) ∧
        ¬IsPermanentFailure (sendSlackWebhook o) ∧
        ¬IsTransientFailure (sendSlackWebhook o)) ∨
      (IsPermanentFailure (sendSlackWebhook o) ∧
        ¬IsSuccessResult (sendSlackWebhook o) ∧
        ¬IsTransientFailure (sendSlackWebhook o)) ∨
      (IsTransientFailure (sendSlackWebhook o) ∧
        ¬IsSuccessResult (sendSlackWebhook o) ∧
        ¬IsPermanentFailure (sendSlackWebhook o)) := by
  cases o with
  | ok =>
      left
      refine ⟨⟨rfl, rfl, rfl⟩, ?_, ?_⟩ <;>
        rintro ⟨h, -⟩ <;> simp [sendSlackWebhook] at h
  | httpError status message =>
      by_cases h : status = some 404 ∨ status = some 410
      · right; left
        refine ⟨⟨?_, ?_, "Webhook not found (deleted or invalid)", ?_, by decide⟩, ?_, ?_⟩
        · simp [sendSlackWebhook, h]
        · simp [sendSlackWebhook, h]
        · simp [sendSlackWebhook, h]
        · rintro ⟨hs, -⟩; simp [sendSlackWebhook, h] at hs
        · rintro ⟨-, hd, -⟩; simp [sendSlackWebhook, h] at hd
      · right; right
        refine ⟨⟨?_, ?_, "Slack API error: " ++ message, ?_, ?_⟩, ?_, ?_⟩
        · simp [sendSlackWebhook, h]
        · simp [sendSlackWebhook, h]
        · simp [sendSlackWebhook, h]
        · exact append_ne_empty_left _ _ (by decide)
        · rintro ⟨hs, -⟩; simp [sendSlackWebhook, h] at hs
        · rintro ⟨-, hd, -⟩; simp [sendSlackWebhook, h] at hd
  | thrown msg =>
      right; right
      refine ⟨⟨rfl, rfl, "Failed to send webhook: " ++ msg.getD "Unknown error",
        rfl, ?_⟩, ?_, ?_⟩
      · exact append_ne_empty_left _ _ (by decide)
      · rintro ⟨hs, -⟩; simp [sendSlackWebhook] at hs
      · rintro ⟨-, hd, -⟩; simp [sendSlackWebhook] at hd

/-- C9: Every `SendWebhookResult` returned by `sendDiscordWebhook` or
`sendSlackWebhook` is exactly one of the three outcome classes: success with
no error message and no `webhookDeleted` flag; permanent failure with
`success = false`, `webhookDeleted` set and a non-empty error; or transient
failure with `success = false`, a non-empty error, and `webhookDeleted` not
set. -/
theorem sendWebhookResult_trichotomy (o : FetchOutcome) :
    ((IsSuccessResult (sendDiscordWebhook o) ∧
        ¬IsPermanentFailure (sendDiscordWebhook o) ∧
        ¬IsTransientFailure (sendDiscordWebhook o)) ∨
      (IsPermanentFailure (sendDiscordWebhook o) ∧
        ¬IsSuccessResult (sendDiscordWebhook o) ∧
        ¬IsTransientFailure (sendDiscordWebhook o)) ∨
      (IsTransientFailure (sendDiscordWebhook o) ∧
        ¬IsSuccessResult (sendDiscordWebhook o) ∧
        ¬IsPermanentFailure (sendDiscordWebhook o))) ∧
    ((IsSuccessResult (sendSlackWebhook o) ∧
        ¬IsPermanentFailure (sendSlackWebhook o) ∧
        ¬IsTransientFailure (sendSlackWebhook o)) ∨
      (IsPermanentFailure (sendSlackWebhook o) ∧
        ¬IsSuccessResult (sendSlackWebhook o) ∧
        ¬IsTransientFailure (sendSlackWebhook o)) ∨
      (IsTransientFailure (sendSlackWebhook o) ∧
        ¬IsSuccessResult (sendSlackWebhook o) ∧
        ¬IsPermanentFailure (sendSlackWebhook o))) :=
  ⟨sendDiscordWebhook_cases o, sendSlackWebhook_cases o⟩

/-- C1: classification of every delivery attempt, for both destination types,
as a function of what the destination endpoint did.  An HTTP 2xx response
yields success; a 404 response (for Slack, also 410) yields a permanent
failure with `webhookDeleted` set; any other non-2xx response or transport
error yields a transient failure carrying an error message.  The functions
are total (the embedding has no exceptional control flow), so no attempt
throws. -/
theorem delivery_classification (resp : DeliveryResponse) :
    ((∃ s t, resp = .http s t ∧ 200 ≤ s ∧ s < 300) →
        IsSuccessResult (sendDiscordWebhook (fetcherOutcome resp)) ∧
        IsSuccessResult (sendSlackWebhook (fetcherOutcome resp))) ∧
    ((∃ t, resp = .http 404 t) →
        IsPermanentFailure (sendDiscordWebhook (fetcherOutcome resp)) ∧
        IsPermanentFailure (sendSlackWebhook (fetcherOutcome resp))) ∧
    ((∃ t, resp = .http 410 t) →
        IsPermanentFailure (sendSlackWebhook (fetcherOutcome resp)) ∧
        IsTransientFailure (sendDiscordWebhook (fetcherOutcome resp))) ∧
    ((∃ s t, resp = .http s t ∧ ¬(200 ≤ s ∧ s < 300) ∧ s ≠ 404 ∧ s ≠ 410) →
        IsTransientFailure (sendDiscordWebhook (fetcherOutcome resp)) ∧
        IsTransientFailure (sendSlackWebhook (fetcherOutcome resp))) ∧
    ((∃ m, resp = .transportError m) →
        IsTransientFailure (sendDiscordWebhook (fetcherOutcome resp)) ∧
        IsTransientFailure (sendSlackWebhook (fetcherOutcome resp))) := by
  refine ⟨?_, ?_, ?_, ?_, ?_⟩
  · rintro ⟨s, t, rfl, hlo, hhi⟩
    have h2xx : fetcherOutcome (.http s t) = .ok := by
      simp [fetcherOutcome, hlo, hhi]
    rw [h2xx]
    exact ⟨⟨rfl, rfl, rfl⟩, ⟨rfl, rfl, rfl⟩⟩
  · rintro ⟨t, rfl⟩
    have h404 : fetcherOutcome (.http 404 t) = .httpError (some 404) t := by
      simp [fetcherOutcome]
    rw [h404]
    constructor
    · rcases sendDiscordWebhook_cases (.httpError (some 404) t) with h | h | h
      · exact absurd h.1.1 (by simp [sendDiscordWebhook])
      · exact h.1
      · exact absurd h.1.2.1 (by simp [sendDiscordWebhook])
    · rcases sendSlackWebhook_cases (.httpError (some 404) t) with h | h | h
      · exact absurd h.1.1 (by simp [sendSlackWebhook])
      · exact h.1
      · exact absurd h.1.2.1 (by simp [sendSlackWebhook])
  · rintro ⟨t, rfl⟩
    have h410 : fetcherOutcome (.http 410 t) = .httpError (some 410) t := by
      simp [fetcherOutcome]
    rw [h410]
    constructor
    · rcases sendSlackWebhook_cases (.httpError (some 410) t) with h | h | h
      · exact absurd h.1.1 (by simp [sendSlackWebhook])
      · exact h.1
      · exact absurd h.1.2.1 (by simp [sendSlackWebhook])
    · rcases sendDiscordWebhook_cases (.httpError (some 410) t) with h | h | h
      · exact absurd h.1.1 (by simp [sendDiscordWebhook])
      · exact absurd h.1.2.1 (by simp [sendDiscordWebhook])
      · exact h.1
  · rintro ⟨s, t, rfl, hno2xx, h404, h410⟩
    have hfo : fetcherOutcome (.http s t) = .httpError (some s) t := by
      simp [fetcherOutcome, hno2xx]
    rw [hfo]
    constructor
    · rcases sendDiscordWebhook_cases (.httpError (some s) t) with h | h | h
      · exact absurd h.1.1 (by simp [sendDiscordWebhook, h404])
      · exact absurd h.1.2.1 (by simp [sendDiscordWebhook, h404])
      · exact h.1
    · rcases sendSlackWebhook_cases (.httpError (some s) t) with h | h | h
      · exact absurd h.1.1 (by simp [sendSlackWebhook, h404, h410])
      · exact absurd h.1.2.1 (by simp [sendSlackWebhook, h404, h410])
      · exact h.1
  · rintro ⟨m, rfl⟩
    have hfo : fetcherOutcome (.transportError m) = .httpError none m := rfl
    rw [hfo]
    constructor
    · rcases sendDiscordWebhook_cases (.httpError none m) with h | h | h
      · exact absurd h.1.1 (by simp [sendDiscordWebhook])
      · exact absurd h.1.2.1 (by simp [sendDiscordWebhook])
      · exact h.1
    · rcases sendSlackWebhook_cases (.httpError none m) with h | h | h
      · exact absurd h.1.1 (by simp [sendSlackWebhook])
      · exact absurd h.1.2.1 (by simp [sendSlackWebhook])
      · exact h.1

/-- Witness for C1: a 404 response is classified as a permanent failure by
both clients. -/
theorem delivery_classification_witness :
    (∃ t, DeliveryResponse.http 404 "Not Found" = .http 404 t) ∧
      (IsPermanentFailure
          (sendDiscordWebhook (fetcherOutcome (.http 404 "Not Found"))) ∧
        IsPermanentFailure
          (sendSlackWebhook (fetcherOutcome (.http 404 "Not Found")))) :=
  ⟨⟨"Not Found", rfl⟩,
    (delivery_classification (.http 404 "Not Found")).2.1 ⟨"Not Found", rfl⟩⟩

/-! ## JavaScript truthiness helpers

`expr || fallback` on optional strings and `if (expr)` on optional strings:
`null`/`undefined` and the empty string are falsy. -/

def jsTruthyStr : Option String → Bool
  | none => false
  | some s => !(s == "")

def jsOr (o : Option String) (d : String) : String :=
  match o with
  | some s => if s = "" then d else s
  | none => d

/-! ## Message formatter (src/lib/aoc.ts, src/lib/discord.ts)

`new Date().toISOString()` appears inside the formatters; the current
timestamp string is passed in as the explicit `nowIso` argument. -/

/-- `sortLeaderboard` (src/lib/aoc.ts): members with at least one star, sorted
by `local_score` descending.  JavaScript `Array.prototype.sort` is stable and
keeps `a` before `b` when the comparator `b.local_score - a.local_score` is
`≤ 0`; `List.mergeSort` with `fun a b => b.local_score ≤ a.local_score` is the
same stable sort. -/
def sortLeaderboard (leaderboard : AocLeaderboard) : List AocMember :=
  ((leaderboard.members.map Prod.snd).filter (fun m => 0 < m.stars)).mergeSort
    (fun a b => b.local_score ≤ a.local_score)

/-- `formatPosition` (src/lib/aoc.ts): medal markers for ranks 1-3, otherwise
a plain `n.` ordinal. -/
def formatPosition (position : Nat) : String :=
  if position = 1 then "🥇"
  else if position = 2 then "🥈"
  else if position = 3 then "🥉"
  else toString position ++ "."

/-- `getMemberName` (src/lib/aoc.ts): `member.name || anonymous-with-id`. -/
def getMemberName (member : AocMember) : String :=
  jsOr member.name ("(anonymous user #" ++ toString member.id ++ ")")

/-- One line of the leaderboard body, the arrow body of the `.map` in
`formatLeaderboardEmbed`: `position **name** - score pts (⭐ stars)`. -/
def leaderboardLine (position : Nat) (member : AocMember) : String :=
  formatPosition position ++ " **" ++ getMemberName member ++ "** - " ++
    toString member.local_score ++ " pts (⭐ " ++ toString member.stars ++ ")"

structure EmbedField where
  name : String
  value : String
  isInline : Bool
  deriving DecidableEq, Repr

structure EmbedFooter where
  text : String
  deriving DecidableEq, Repr

structure DiscordEmbed where
  title : Option String
  description : Option String
  color : Option Nat
  fields : List EmbedField
  footer : Option EmbedFooter
  timestamp : Option String
  deriving DecidableEq, Repr

structure DiscordWebhookPayload where
  content : Option String
  embeds : List DiscordEmbed
  username : Option String
  deriving DecidableEq, Repr

/-- `formatLeaderboardEmbed` (src/lib/discord.ts): top 15 of the sorted
leaderboard, one `leaderboardLine` per member joined with newlines (or the
"no participants" placeholder when the joined text is empty), a stats field,
an optional verbatim join-code field, and an optional role mention. -/
def formatLeaderboardEmbed (leaderboard : AocLeaderboard) (roleId : Option String)
    (joinCode : Option String) (nowIso : String) : DiscordWebhookPayload :=
  let sorted := sortLeaderboard leaderboard
  let topMembers := sorted.take 15
  let leaderboardText :=
    String.intercalate "\n" (topMembers.enum.map (fun p => leaderboardLine (p.1 + 1) p.2))
  let totalParticipants := leaderboard.members.length
  let activeParticipants := sorted.length
  let fields : List EmbedField :=
    [{ name := "📊 Stats"
       value := toString activeParticipants ++ " active / " ++
         toString totalParticipants ++ " total participants"
       isInline := true }] ++
    (if jsTruthyStr joinCode then
        [{ name := "🔗 Join Code"
           value := "`" ++ joinCode.getD "" ++ "`"
           isInline := true }]
      else [])
  let embed : DiscordEmbed :=
    { title := some ("🎄 Advent of Code " ++ leaderboard.event ++ " Leaderboard")
      description :=
        some (if leaderboardText = "" then "No participants with stars yet!"
          else leaderboardText)
      color := some 0x0f9d58
      fields := fields
      footer := some { text := "Updated" }
      timestamp := some nowIso }
  { content :=
      if jsTruthyStr roleId then some ("<@&" ++ (jsOr roleId "") ++ ">") else none
    embeds := [embed]
    username := some "Adventcord" }

/-- `formatPuzzleNotificationEmbed` (src/lib/discord.ts): fixed-template
announcement linking to the day's puzzle, with the same role-mention rule. -/
def formatPuzzleNotificationEmbed (day : Int) (year : Int) (roleId : Option String)
    (nowIso : String) : DiscordWebhookPayload :=
  let puzzleUrl := "https://adventofcode.com/" ++ toString year ++ "/day/" ++ toString day
  { content :=
      if jsTruthyStr roleId then some ("<@&" ++ (jsOr roleId "") ++ ">") else none
    embeds :=
      [{ title := some ("🎄 Day " ++ toString day ++ " is Live!")
         description :=
           some ("A new Advent of Code puzzle has been released!\n\n**[Click here to start Day "
             ++ toString day ++ "](" ++ puzzleUrl ++ ")**\n\nGood luck and have fun! ⭐")
         color := some 0xffff66
         fields := []
         footer := some { text := "Advent of Code " ++ toString year }
         timestamp := some nowIso }]
    username := some "Adventcord" }

/-! Lemmas for the formatter. -/

/-- Helper: a non-empty string has positive length. -/
theorem length_pos_of_ne_empty (s : String) (h : s ≠ "") : 0 < s.length := by
  cases s with
  | mk data =>
    cases data with
    | nil => exact absurd rfl h
    | cons c cs => simp [String.length]

/-- Helper: `String.intercalate.go` only ever appends to its accumulator. -/
theorem intercalate_go_length (s : String) (xs : List String) (acc : String) :
    acc.length ≤ (String.intercalate.go acc s xs).length := by
  induction xs generalizing acc with
  | nil => simp [String.intercalate.go]
  | cons a as ih =>
      have h1 : String.intercalate.go acc s (a :: as) =
          String.intercalate.go (acc ++ s ++ a) s as := by
        simp [String.intercalate.go]
      rw [h1]
      have h2 := ih (acc ++ s ++ a)
      have h3 : (acc ++ s ++ a).length = acc.length + s.length + a.length := by
        rw [String.length_append, String.length_append]
      omega

/-- Helper: joining a list whose head is non-empty gives a non-empty string. -/
theorem intercalate_cons_ne_empty (s x : String) (xs : List String) (hx : x ≠ "") :
    String.intercalate s (x :: xs) ≠ "" := by
  intro h
  have h1 : String.intercalate s (x :: xs) = String.intercalate.go x s xs := rfl
  have h2 := intercalate_go_length s xs x
  rw [← h1, h] at h2
  have h3 := length_pos_of_ne_empty x hx
  have h4 : ("" : String).length = 0 := rfl
  omega

/-- Helper: `formatPosition` is never empty. -/
theorem formatPosition_length_pos (position : Nat) : 0 < (formatPosition position).length := by
  unfold formatPosition
  split
  · decide
  split
  · decide
  split
  · decide
  rw [String.length_append]
  have : (0 : Nat) < ".".length := by decide
  omega

/-- Helper: a rendered leaderboard line is never the empty string. -/
theorem leaderboardLine_ne_empty (position : Nat) (member : AocMember) :
    leaderboardLine position member ≠ "" := by
  intro h
  have hlen := congrArg String.length h
  unfold leaderboardLine at hlen
  simp only [String.length_append] at hlen
  have h1 := formatPosition_length_pos position
  have h4 : ("" : String).length = 0 := rfl
  omega

/-- C4: the rendered leaderboard-update message lists exactly the members with
a positive star count, sorted by descending score and truncated to the first
15, each rendered with `leaderboardLine` (rank marker, name, score, stars);
when no member has a positive star count the body is the "no participants"
placeholder; and the body is never the empty string. -/
theorem formatLeaderboardEmbed_listing (leaderboard : AocLeaderboard)
    (roleId joinCode : Option String) (nowIso : String) :
    (sortLeaderboard leaderboard).Perm
        ((leaderboard.members.map Prod.snd).filter (fun m => 0 < m.stars)) ∧
      List.Pairwise (fun a b : AocMember => b.local_score ≤ a.local_score)
        (sortLeaderboard leaderboard) ∧
      (formatLeaderboardEmbed leaderboard roleId joinCode nowIso).embeds.map
          (fun e => e.description)
        = [some (if sortLeaderboard leaderboard = [] then "No participants with stars yet!"
            else String.intercalate "\n"
              (((sortLeaderboard leaderboard).take 15).enum.map
                (fun p => leaderboardLine (p.1 + 1) p.2)))] ∧
      ∀ d ∈ (formatLeaderboardEmbed leaderboard roleId joinCode nowIso).embeds.map
          (fun e => e.description), d ≠ some "" := by
  have hperm : (sortLeaderboard leaderboard).Perm
      ((leaderboard.members.map Prod.snd).filter (fun m => 0 < m.stars)) :=
    List.mergeSort_perm _ _
  have hsorted : List.Pairwise (fun a b : AocMember => b.local_score ≤ a.local_score)
      (sortLeaderboard leaderboard) := by
    have h := @List.sorted_mergeSort AocMember
      (fun a b : AocMember => decide (b.local_score ≤ a.local_score))
      (fun a b c hab hbc => by
        simp only [decide_eq_true_eq] at hab hbc ⊢; omega)
      (fun a b => by
        simp only [Bool.or_eq_true, decide_eq_true_eq]; omega)
      ((leaderboard.members.map Prod.snd).filter (fun m => 0 < m.stars))
    refine List.Pairwise.imp ?_ h
    intro a b hab
    simpa only [decide_eq_true_eq] using hab
  -- the joined text is empty exactly when the sorted list is empty
  have htext : (String.intercalate "\n"
        (((sortLeaderboard leaderboard).take 15).enum.map
          (fun p => leaderboardLine (p.1 + 1) p.2)) = "")
      ↔ sortLeaderboard leaderboard = [] := by
    constructor
    · intro h
      cases hs : sortLeaderboard leaderboard with
      | nil => rfl
      | cons a rest =>
          exfalso
          rw [hs] at h
          rw [List.take_succ_cons, List.enum_cons, List.map_cons] at h
          exact intercalate_cons_ne_empty _ _ _ (leaderboardLine_ne_empty 1 a) h
    · intro h
      rw [h]
      rfl
  have hmap : (formatLeaderboardEmbed leaderboard roleId joinCode nowIso).embeds.map
        (fun e => e.description)
      = [some (if sortLeaderboard leaderboard = [] then "No participants with stars yet!"
          else String.intercalate "\n"
            (((sortLeaderboard leaderboard).take 15).enum.map
              (fun p => leaderboardLine (p.1 + 1) p.2)))] := by
    show [(if String.intercalate "\n"
        (((sortLeaderboard leaderboard).take 15).enum.map
          (fun p => leaderboardLine (p.1 + 1) p.2)) = "" then
          "No participants with stars yet!"
        else String.intercalate "\n"
          (((sortLeaderboard leaderboard).take 15).enum.map
            (fun p => leaderboardLine (p.1 + 1) p.2))) |> some] = _
    by_cases h : sortLeaderboard leaderboard = []
    · rw [if_pos (htext.mpr h), if_pos h]
    · rw [if_neg (fun hc => h (htext.mp hc)), if_neg h]
  refine ⟨hperm, hsorted, hmap, ?_⟩
  intro d hd
  rw [hmap, List.mem_singleton] at hd
  subst hd
  intro hcontra
  have hdesc := Option.some.inj hcontra
  by_cases h : sortLeaderboard leaderboard = []
  · rw [if_pos h] at hdesc
    exact absurd hdesc (by decide)
  · rw [if_neg h] at hdesc
    exact (fun hc => h (htext.mp hc)) hdesc

/-- Witness for C4: the rendered list at a concrete leaderboard holds exactly
its positive-star members. -/
theorem formatLeaderboardEmbed_listing_witness :
    (sortLeaderboard { event := "2025", members := [("1",
        { id := 1, name := some "alice", stars := 3, local_score := 50 })] }).Perm
      ((({ event := "2025", members := [("1",
        { id := 1, name := some "alice", stars := 3, local_score := 50 })] }
          : AocLeaderboard).members.map Prod.snd).filter (fun m => 0 < m.stars)) :=
  (formatLeaderboardEmbed_listing { event := "2025", members := [("1",
    { id := 1, name := some "alice", stars := 3, local_score := 50 })] }
    none none "2025-12-05T18:00:00.000Z").1

/-! ## Leaderboard URL validation (src/lib/validation.ts)

`validateLeaderboardUrl` reads three pieces of the WHATWG-parsed URL:
`hostname`, `pathname` and `searchParams.get("view_key")`.  `parseUrl` models
exactly those pieces; a parse failure (the `catch` branch of the source) is
`none`.  Percent-decoding is not modelled. -/

structure ParsedUrl where
  scheme : String
  hostname : String
  pathname : String
  query : String
  deriving DecidableEq, Repr

/-- Split a character list at the first occurrence of `sep` (the part before,
the part after); `none` when `sep` does not occur. -/
def breakOnSub (sep : List Char) : List Char → Option (List Char × List Char)
  | [] => none
  | x :: xs =>
      if sep.isPrefixOf (x :: xs) then some ([], (x :: xs).drop sep.length)
      else
        match breakOnSub sep xs with
        | some (l, r) => some (x :: l, r)
        | none => none

/-- Split a character list at every occurrence of the character `c`. -/
def splitOnChar (c : Char) : List Char → List (List Char)
  | [] => [[]]
  | x :: xs =>
      let r := splitOnChar c xs
      if x == c then [] :: r
      else (x :: r.headD []) :: r.tail

/-- Join character-list segments with the character `c` (inverse of
`splitOnChar` on its output). -/
def joinWithChar (c : Char) : List (List Char) → List Char
  | [] => []
  | [x] => x
  | x :: xs => x ++ c :: joinWithChar c xs

def parseUrl (url : String) : Option ParsedUrl :=
  match breakOnSub "://".data url.data with
  | none => none
  | some (schemeChars, afterScheme) =>
      if schemeChars = [] then none
      else
        let rest : List Char :=
          match breakOnSub "#".data afterScheme with
          | some (before, _) => before
          | none => afterScheme
        let hostPath : List Char :=
          match breakOnSub "?".data rest with
          | some (before, _) => before
          | none => rest
        let query : List Char :=
          match breakOnSub "?".data rest with
          | some (_, after) => after
          | none => []
        match splitOnChar '/' hostPath with
        | [] => none
        | host :: pathSegs =>
            if host = [] then none
            else
              some { scheme := ⟨schemeChars⟩
                     hostname := ⟨host⟩
                     pathname := ⟨'/' :: joinWithChar '/' pathSegs⟩
                     query := ⟨query⟩ }

/-- `searchParams.get(name)`: the value of the first `name=value` pair of the
query string (a bare `name` yields the empty string), `none` when absent. -/
def searchParamGet (query name : String) : Option String :=
  ((splitOnChar '&' query.data).filterMap fun pair =>
    match breakOnSub "=".data pair with
    | none => if pair = name.data then some "" else none
    | some (k, v) => if k = name.data then some (⟨v⟩ : String) else none).head?

/-- The path regex of `validateLeaderboardUrl`:
`^\/(\d{4})\/leaderboard\/private\/view\/(\d+)$`, capturing year and
leaderboard id. -/
def matchLeaderboardPath (path : String) : Option (String × String) :=
  match splitOnChar '/' path.data with
  | [[], year, seg1, seg2, seg3, lbId] =>
      if seg1 = "leaderboard".data ∧ seg2 = "private".data ∧ seg3 = "view".data
          ∧ year.length = 4 ∧ year.all Char.isDigit ∧ lbId ≠ [] ∧ lbId.all Char.isDigit
      then some (⟨year⟩, ⟨lbId⟩) else none
  | _ => none

structure LeaderboardUrlValidation where
  valid : Bool
  error : Option String
  viewKey : Option String
  leaderboardId : Option String
  year : Option String
  deriving DecidableEq, Repr

/-- `validateLeaderboardUrl` (src/lib/validation.ts): hostname must be
`adventofcode.com`, the path must match the private-leaderboard pattern, and
a (truthy, hence non-empty) `view_key` query parameter must be present. -/
def validateLeaderboardUrl (url : String) : LeaderboardUrlValidation :=
  match parseUrl url with
  | none =>
      { valid := false, error := some "Invalid URL format"
        viewKey := none, leaderboardId := none, year := none }
  | some parsed =>
      if parsed.hostname ≠ "adventofcode.com" then
        { valid := false, error := some "URL must be from adventofcode.com"
          viewKey := none, leaderboardId := none, year := none }
      else
        match matchLeaderboardPath parsed.pathname with
        | none =>
            { valid := false, error := some "Invalid leaderboard URL path format"
              viewKey := none, leaderboardId := none, year := none }
        | some (year, leaderboardId) =>
            match searchParamGet parsed.query "view_key" with
            | none =>
                { valid := false, error := some "URL must include a view_key parameter"
                  viewKey := none, leaderboardId := none, year := none }
            | some viewKey =>
                if viewKey = "" then
                  { valid := false, error := some "URL must include a view_key parameter"
                    viewKey := none, leaderboardId := none, year := none }
                else
                  { valid := true, error := none
                    viewKey := some viewKey, leaderboardId := some leaderboardId
                    year := some year }

/-- Helper: a validation that reports `valid` carries a non-empty view key and
the year and leaderboard id captures. -/
theorem validateLeaderboardUrl_valid_fields (url : String)
    (h : (validateLeaderboardUrl url).valid = true) :
    (∃ k, (validateLeaderboardUrl url).viewKey = some k ∧ k ≠ "") ∧
      (validateLeaderboardUrl url).leaderboardId.isSome = true ∧
      (validateLeaderboardUrl url).year.isSome = true := by
  revert h
  unfold validateLeaderboardUrl
  repeat' split
  all_goals intro h
  all_goals try simp at h
  exact ⟨⟨_, rfl, by assumption⟩, rfl, rfl⟩

/-! ## Leaderboard cache and `getLeaderboard` (scripts/cron.ts)

The `leaderboard_cache` table (src/db/schema.ts) keyed by `view_key`.  The
source stores `JSON.stringify(result.data)` and parses it back on a hit; the
JSON round-trip is modelled as the identity, so an entry holds the
`AocLeaderboard` value itself.  The `id` column (set equal to the view key on
insert) plays no role in the dispatcher and is not modelled. -/

structure CacheEntry where
  viewKey : String
  data : AocLeaderboard
  fetchedAtMs : Int
  deriving DecidableEq, Repr

/-- The CLI flags of scripts/cron.ts that affect a dispatch run.  The
standalone `--test-url` test-send mode bypasses the store entirely and is
outside the dispatch run modelled here. -/
structure CliArgs where
  hour : Option Int
  day : Option Int
  dryRun : Bool
  forceAoc : Bool
  webhookId : Option String
  webhookUrl : Option String
  skipCache : Bool
  deriving DecidableEq, Repr

/-- `CACHE_TTL_MS` (scripts/cron.ts): 5 minutes, 0 under `--skip-cache`. -/
def CACHE_TTL_MS (args : CliArgs) : Int :=
  if args.skipCache then 0 else 5 * 60 * 1000

/-- The `onConflictDoUpdate` upsert of `getLeaderboard`: overwrite the entry
with this view key, or insert a new one. -/
def upsertCache (cache : List CacheEntry) (key : String) (d : AocLeaderboard)
    (nowMs : Int) : List CacheEntry :=
  if cache.any (fun c => c.viewKey == key) then
    cache.map (fun c =>
      if c.viewKey == key then { c with data := d, fetchedAtMs := nowMs } else c)
  else cache ++ [{ viewKey := key, data := d, fetchedAtMs := nowMs }]

/-- The environment of one run: the resolved Eastern time info, the clock, and
the network (every endpoint's behaviour during the run). -/
structure Env where
  hour : Int
  day : Int
  month : Int
  year : Int
  nowMs : Int
  nowIso : String
  deliver : String → DiscordWebhookPayload → FetchOutcome
  fetchLb : String → Except String AocLeaderboard

/-- `getLeaderboard` (scripts/cron.ts): validate the URL, return the cached
payload when the entry for its view key is younger than the TTL, otherwise
call `fetchLeaderboard` and, on success, overwrite the cache entry before
returning.  Result: the payload or error, the updated cache table, and the
number of `fetchLeaderboard` invocations (0 or 1). -/
def getLeaderboard (args : CliArgs) (env : Env) (cache : List CacheEntry)
    (url : String) : (Except String AocLeaderboard) × List CacheEntry × Nat :=
  let validation := validateLeaderboardUrl url
  if !validation.valid || !(jsTruthyStr validation.viewKey) then
    (.error (jsOr validation.error "Invalid leaderboard URL"), cache, 0)
  else
    let key := validation.viewKey.getD ""
    let fetchFresh : (Except String AocLeaderboard) × List CacheEntry × Nat :=
      match env.fetchLb url with
      | .ok d => (.ok d, upsertCache cache key d env.nowMs, 1)
      | .error e => (.error e, cache, 1)
    match cache.find? (fun c => c.viewKey == key) with
    | some cached =>
        if env.nowMs - cached.fetchedAtMs < CACHE_TTL_MS args then
          (.ok cached.data, cache, 0)
        else fetchFresh
    | none => fetchFresh

/-- C10: `validateLeaderboardUrl` is total (a total function of the input
string; every input, URL-shaped or not, yields a result), and a `valid`
result carries a non-empty `viewKey` together with the year and leaderboard
id, so the access-key guard at the top of `getLeaderboard` cannot reject a
URL that validated: on an empty cache, `getLeaderboard` proceeds to invoke
the fetcher. -/
theorem validateLeaderboardUrl_total_sound (url : String) :
    ((validateLeaderboardUrl url).valid = true →
      (∃ k, (validateLeaderboardUrl url).viewKey = some k ∧ k ≠ "") ∧
        (validateLeaderboardUrl url).leaderboardId.isSome = true ∧
        (validateLeaderboardUrl url).year.isSome = true ∧
        (!(validateLeaderboardUrl url).valid
            || !(jsTruthyStr (validateLeaderboardUrl url).viewKey)) = false ∧
        ∀ args env, (getLeaderboard args env [] url).2.2 = 1) := by
  intro h
  obtain ⟨⟨k, hk, hkne⟩, hid, hyear⟩ := validateLeaderboardUrl_valid_fields url h
  have hguard : (!(validateLeaderboardUrl url).valid
      || !(jsTruthyStr (validateLeaderboardUrl url).viewKey)) = false := by
    rw [h, hk]
    simp [jsTruthyStr, hkne]
  refine ⟨⟨k, hk, hkne⟩, hid, hyear, hguard, ?_⟩
  intro args env
  simp only [getLeaderboard, hguard, Bool.false_eq_true, if_false, List.find?_nil]
  cases env.fetchLb url <;> rfl

/-- Witness for C10 at a concrete valid leaderboard URL. -/
theorem validateLeaderboardUrl_total_sound_witness :
    (validateLeaderboardUrl
        "https://adventofcode.com/2025/leaderboard/private/view/123456?view_key=abc123").valid
        = true ∧
      (∃ k, (validateLeaderboardUrl
          "https://adventofcode.com/2025/leaderboard/private/view/123456?view_key=abc123").viewKey
            = some k ∧ k ≠ "") :=
  ⟨by decide,
    ((validateLeaderboardUrl_total_sound
      "https://adventofcode.com/2025/leaderboard/private/view/123456?view_key=abc123")
      (by decide)).1⟩

/-! Lemmas about the cache upsert. -/

/-- Helper: overwriting the conflicting entry makes it the first (and, under
the key-uniqueness invariant, only) entry found for the key. -/
theorem find_upsert_replaced (cache : List CacheEntry) (key : String)
    (d : AocLeaderboard) (nowMs : Int)
    (h : cache.any (fun c => c.viewKey == key) = true) :
    (cache.map (fun c =>
        if c.viewKey == key then { c with data := d, fetchedAtMs := nowMs } else c)).find?
        (fun c => c.viewKey == key)
      = some { viewKey := key, data := d, fetchedAtMs := nowMs } := by
  induction cache with
  | nil => simp at h
  | cons c0 rest ih =>
      rw [List.map_cons]
      by_cases h0 : (c0.viewKey == key) = true
      · have hkeq : c0.viewKey = key := by simpa using h0
        have hhead : (if c0.viewKey == key then
            ({ c0 with data := d, fetchedAtMs := nowMs } : CacheEntry) else c0)
            = { viewKey := key, data := d, fetchedAtMs := nowMs } := by
          rw [if_pos h0]
          show ({ viewKey := c0.viewKey, data := d, fetchedAtMs := nowMs } : CacheEntry) = _
          rw [hkeq]
        rw [hhead, List.find?_cons_of_pos]
        simp
      · have h0' : (c0.viewKey == key) = false := by simpa using h0
        have hhead : (if c0.viewKey == key then
            ({ c0 with data := d, fetchedAtMs := nowMs } : CacheEntry) else c0) = c0 := by
          rw [if_neg h0]
        rw [hhead, List.find?_cons_of_neg]
        · apply ih
          simp only [List.any_cons, h0', Bool.false_or] at h
          exact h
        · exact h0
  -- under the schema's unique-viewKey invariant this entry is the only match

/-- Helper: inserting a fresh entry for an absent key makes it the entry found
for the key. -/
theorem find_append_fresh (cache : List CacheEntry) (key : String)
    (d : AocLeaderboard) (nowMs : Int)
    (h : cache.any (fun c => c.viewKey == key) = false) :
    (cache ++ [({ viewKey := key, data := d, fetchedAtMs := nowMs } : CacheEntry)]).find?
        (fun c => c.viewKey == key)
      = some { viewKey := key, data := d, fetchedAtMs := nowMs } := by
  induction cache with
  | nil =>
      rw [List.nil_append, List.find?_cons_of_pos]
      simp
  | cons c0 rest ih =>
      simp only [List.any_cons, Bool.or_eq_false_iff] at h
      rw [List.cons_append, List.find?_cons_of_neg]
      · exact ih h.2
      · simp [h.1]

/-- Helper: after `upsertCache`, the lookup for the key returns exactly the
just-stored payload and timestamp. -/
theorem upsertCache_find (cache : List CacheEntry) (key : String)
    (d : AocLeaderboard) (nowMs : Int) :
    (upsertCache cache key d nowMs).find? (fun c => c.viewKey == key)
      = some { viewKey := key, data := d, fetchedAtMs := nowMs } := by
  unfold upsertCache
  by_cases h : cache.any (fun c => c.viewKey == key) = true
  · rw [if_pos h]
    exact find_upsert_replaced cache key d nowMs h
  · rw [if_neg h]
    exact find_append_fresh cache key d nowMs (by simpa using h)

/-- C3: for a URL that validates, `getLeaderboard` invokes the fetcher exactly
when the cache holds no entry for the URL's view key younger than the TTL; a
fresh hit returns the cached payload with no fetch and an unchanged cache;
with the TTL forced to 0 by `--skip-cache` (and timestamps not in the future)
every call fetches; and a successful fetch overwrites the cache entry for the
key before returning the fetched payload. -/
theorem getLeaderboard_cache_policy (args : CliArgs) (env : Env)
    (cache : List CacheEntry) (url : String)
    (hvalid : (validateLeaderboardUrl url).valid = true) :
    ((getLeaderboard args env cache url).2.2 =
        if ((cache.find? (fun c =>
              c.viewKey == (validateLeaderboardUrl url).viewKey.getD "")).any
                (fun c => env.nowMs - c.fetchedAtMs < CACHE_TTL_MS args)) = true
        then 0 else 1) ∧
      (∀ c, cache.find? (fun x =>
            x.viewKey == (validateLeaderboardUrl url).viewKey.getD "") = some c →
          env.nowMs - c.fetchedAtMs < CACHE_TTL_MS args →
          (getLeaderboard args env cache url).1 = .ok c.data ∧
            (getLeaderboard args env cache url).2.1 = cache) ∧
      (args.skipCache = true → (∀ c ∈ cache, c.fetchedAtMs ≤ env.nowMs) →
          (getLeaderboard args env cache url).2.2 = 1) ∧
      (∀ lb, env.fetchLb url = .ok lb →
          (getLeaderboard args env cache url).2.2 = 1 →
          (getLeaderboard args env cache url).1 = .ok lb ∧
            ((getLeaderboard args env cache url).2.1.find? (fun c =>
                c.viewKey == (validateLeaderboardUrl url).viewKey.getD ""))
              = some { viewKey := (validateLeaderboardUrl url).viewKey.getD ""
                       data := lb
                       fetchedAtMs := env.nowMs }) := by
  obtain ⟨⟨k, hk, hkne⟩, -, -⟩ := validateLeaderboardUrl_valid_fields url hvalid
  have hguard : (!(validateLeaderboardUrl url).valid
      || !(jsTruthyStr (validateLeaderboardUrl url).viewKey)) = false := by
    rw [hvalid, hk]
    simp [jsTruthyStr, hkne]
  have hmain : getLeaderboard args env cache url =
      (match cache.find? (fun c =>
          c.viewKey == (validateLeaderboardUrl url).viewKey.getD "") with
        | some cached =>
            if env.nowMs - cached.fetchedAtMs < CACHE_TTL_MS args then
              (.ok cached.data, cache, 0)
            else
              match env.fetchLb url with
              | .ok d => (.ok d,
                  upsertCache cache ((validateLeaderboardUrl url).viewKey.getD "")
                    d env.nowMs, 1)
              | .error e => (.error e, cache, 1)
        | none =>
            match env.fetchLb url with
            | .ok d => (.ok d,
                upsertCache cache ((validateLeaderboardUrl url).viewKey.getD "")
                  d env.nowMs, 1)
            | .error e => (.error e, cache, 1)) := by
    simp only [getLeaderboard, hguard, Bool.false_eq_true, if_false]
  refine ⟨?_, ?_, ?_, ?_⟩
  · rw [hmain]
    cases hfind : cache.find? (fun c =>
        c.viewKey == (validateLeaderboardUrl url).viewKey.getD "") with
    | none =>
        simp only [Option.any_none, Bool.false_eq_true, if_false]
        cases env.fetchLb url <;> rfl
    | some c =>
        by_cases hfresh : env.nowMs - c.fetchedAtMs < CACHE_TTL_MS args
        · simp [Option.any_some, hfresh]
        · simp only [Option.any_some, decide_eq_true_eq]
          rw [if_neg hfresh, if_neg hfresh]
          cases env.fetchLb url <;> rfl
  · intro c hfind hfresh
    rw [hmain]
    simp only [hfind]
    rw [if_pos hfresh]
    exact ⟨rfl, rfl⟩
  · intro hskip hts
    cases hfind : cache.find? (fun c =>
        c.viewKey == (validateLeaderboardUrl url).viewKey.getD "") with
    | none =>
        rw [hmain]
        simp only [hfind]
        cases env.fetchLb url <;> rfl
    | some c =>
        have hc : c ∈ cache := List.mem_of_find?_eq_some hfind
        have hle := hts c hc
        have hnotfresh : ¬(env.nowMs - c.fetchedAtMs < CACHE_TTL_MS args) := by
          simp only [CACHE_TTL_MS, hskip, if_true]
          omega
        rw [hmain]
        simp only [hfind]
        rw [if_neg hnotfresh]
        cases env.fetchLb url <;> rfl
  · intro lb hfetch hcount
    cases hfind : cache.find? (fun c =>
        c.viewKey == (validateLeaderboardUrl url).viewKey.getD "") with
    | none =>
        rw [hmain]
        simp only [hfind, hfetch]
        exact ⟨trivial, upsertCache_find cache _ lb env.nowMs⟩
    | some c =>
        rw [hmain] at hcount
        simp only [hfind] at hcount
        by_cases hfresh : env.nowMs - c.fetchedAtMs < CACHE_TTL_MS args
        · rw [if_pos hfresh] at hcount
          exact absurd hcount Nat.zero_ne_one
        · rw [hmain]
          simp only [hfind]
          rw [if_neg hfresh]
          simp only [hfetch]
          exact ⟨trivial, upsertCache_find cache _ lb env.nowMs⟩

/-! Concrete fixtures shared by the witnesses below. -/

def exMember : AocMember :=
  { id := 1, name := some "alice", stars := 3, local_score := 50 }

def exLeaderboard : AocLeaderboard :=
  { event := "2025", members := [("1", exMember)] }

def exUrl : String :=
  "https://adventofcode.com/2025/leaderboard/private/view/123456?view_key=abc123"

/-- An environment whose leaderboard fetches succeed and whose webhook
deliveries return HTTP 404. -/
def exEnv404 : Env :=
  { hour := 18, day := 5, month := 12, year := 2025
    nowMs := 1000000, nowIso := "2025-12-05T18:00:00.000Z"
    deliver := fun _ _ => .httpError (some 404) "Not Found"
    fetchLb := fun _ => .ok exLeaderboard }

/-- An environment whose fetches and deliveries all succeed. -/
def exEnvOk : Env :=
  { hour := 18, day := 5, month := 12, year := 2025
    nowMs := 1000000, nowIso := "2025-12-05T18:00:00.000Z"
    deliver := fun _ _ => .ok
    fetchLb := fun _ => .ok exLeaderboard }

def exArgs : CliArgs :=
  { hour := none, day := none, dryRun := false, forceAoc := false
    webhookId := none, webhookUrl := none, skipCache := false }

/-- Witness for C3: on an empty cache the fetch-count characterization applies
at a concrete valid URL. -/
theorem getLeaderboard_cache_policy_witness :
    (validateLeaderboardUrl exUrl).valid = true ∧
      (getLeaderboard exArgs exEnvOk [] exUrl).2.2 =
        if ((([] : List CacheEntry).find? (fun c =>
              c.viewKey == (validateLeaderboardUrl exUrl).viewKey.getD "")).any
                (fun c => exEnvOk.nowMs - c.fetchedAtMs < CACHE_TTL_MS exArgs)) = true
        then 0 else 1 :=
  ⟨by decide, (getLeaderboard_cache_policy exArgs exEnvOk [] exUrl (by decide)).1⟩

/-! ## Subscription store, audit log and run state (src/db/schema.ts,
scripts/cron.ts)

A `webhooks` row as the old cron reads it.  The `hours` column stores a JSON
array text (e.g. `"[6, 12, 18]"`); the model carries its `JSON.parse`d value.
`puzzleNotificationHour` is nullable (`null` = disabled). -/

structure Webhook where
  id : String
  discordWebhookUrl : String
  roleId : Option String
  hours : List Int
  leaderboardUrl : String
  joinCode : Option String
  puzzleNotificationHour : Option Int
  deriving DecidableEq, Repr

/-- A `logs` row (`createLog` writes id/timestamp besides these fields; they
play no role in the claims). -/
structure LogEntry where
  webhookId : Option String
  type : String
  message : String
  deriving DecidableEq, Repr

/-- The success/error/deleted counters the run accumulates. -/
structure Stats where
  success : Nat
  errors : Nat
  deleted : Nat
  deriving DecidableEq, Repr

def Stats.zero : Stats := { success := 0, errors := 0, deleted := 0 }

/-- The observable state threaded through a run: the two persistent tables and
the audit log, plus instrumentation recording every webhook POST actually
performed (`sentPuzzle`/`sentLb`) and every payload rendered
(`renderedPuzzle`/`renderedLb`). -/
structure RunState where
  webhooks : List Webhook
  cache : List CacheEntry
  logs : List LogEntry
  sentPuzzle : List (String × DiscordWebhookPayload)
  sentLb : List (String × DiscordWebhookPayload)
  renderedPuzzle : List DiscordWebhookPayload
  renderedLb : List DiscordWebhookPayload
  deriving DecidableEq, Repr

/-- `isAocSeason` (scripts/cron.ts): December 1-25. -/
def isAocSeason (month day : Int) : Bool :=
  month == 12 && day ≥ 1 && day ≤ 25

/-- `AOC_CONFIG` (src/lib/aoc-config.ts) as resolved from the environment;
the defaults are start day 1, end day 12, December. -/
structure AocConfig where
  startDay : Int
  endDay : Int
  month : Int
  deriving DecidableEq, Repr

/-- `isAocPuzzleSeason` (src/lib/aoc-config.ts): day within the configured
inclusive start/end range of the configured month. -/
def isAocPuzzleSeason (cfg : AocConfig) (month day : Int) : Bool :=
  month == cfg.month && day ≥ cfg.startDay && day ≤ cfg.endDay

/-- `isAocLeaderboardSeason` (src/lib/aoc-config.ts): the release range
extended by one day. -/
def isAocLeaderboardSeason (cfg : AocConfig) (month day : Int) : Bool :=
  month == cfg.month && day ≥ cfg.startDay && day ≤ cfg.endDay + 1

/-- The hour filter of `main` (scripts/cron.ts):
`JSON.parse(webhook.hours).includes(currentHour)`. -/
def isActiveForHour (w : Webhook) (currentHour : Int) : Bool :=
  w.hours.contains currentHour

/-- `createLog` (scripts/cron.ts): append an audit log entry. -/
def createLog (st : RunState) (webhookId : Option String) (type : String)
    (message : String) : RunState :=
  { st with logs := st.logs ++
      [{ webhookId := webhookId, type := type, message := message }] }

/-- The outcome-handling block shared (verbatim, up to the success message) by
the two webhook loops of scripts/cron.ts: a `webhookDeleted` result deletes
the subscription row and logs `webhook_deleted`; a success logs the per-pass
success message; anything else logs the failure message (`result.error ||
"Unknown error"`).  The counters update regardless of dry-run; the store and
log writes are guarded by `!cliArgs.dryRun`. -/
def handleResult (dryRun : Bool) (st : RunState) (stats : Stats) (w : Webhook)
    (result : SendWebhookResult) (successMsg : String) : RunState × Stats :=
  if result.webhookDeleted = some true then
    (if dryRun = false then
        createLog { st with webhooks := st.webhooks.filter (fun x => x.id ≠ w.id) }
          (some w.id) "webhook_deleted" "Webhook was deleted from Discord"
      else st,
     { stats with deleted := stats.deleted + 1 })
  else if result.success then
    (if dryRun = false then createLog st (some w.id) "success" successMsg else st,
     { stats with success := stats.success + 1 })
  else
    (if dryRun = false then
        createLog st (some w.id) "error" (jsOr result.error "Unknown error")
      else st,
     { stats with errors := stats.errors + 1 })

/-- One iteration of the `sendPuzzleNotifications` loop (scripts/cron.ts):
render, short-circuit under dry-run (counting a success), otherwise send and
handle the outcome. -/
def processPuzzleWebhook (args : CliArgs) (env : Env) (day year : Int)
    (acc : RunState × Stats) (w : Webhook) : RunState × Stats :=
  let payload := formatPuzzleNotificationEmbed day year w.roleId env.nowIso
  let st := { acc.1 with renderedPuzzle := acc.1.renderedPuzzle ++ [payload] }
  if args.dryRun then
    (st, { acc.2 with success := acc.2.success + 1 })
  else
    let result := sendDiscordWebhook (env.deliver w.discordWebhookUrl payload)
    let st := { st with sentPuzzle := st.sentPuzzle ++ [(w.discordWebhookUrl, payload)] }
    handleResult args.dryRun st acc.2 w result
      ("Day " ++ toString day ++ " puzzle notification sent")

/-- `sendPuzzleNotifications` (scripts/cron.ts): deliver the day's puzzle
announcement to every webhook whose `puzzleNotificationHour` equals the
current hour. -/
def sendPuzzleNotifications (args : CliArgs) (env : Env)
    (allWebhooks : List Webhook) (currentHour day year : Int)
    (st : RunState) : RunState × Stats :=
  (allWebhooks.filter (fun w => w.puzzleNotificationHour = some currentHour)).foldl
    (processPuzzleWebhook args env day year) (st, Stats.zero)

/-- One iteration of the per-group webhook loop of `main` (scripts/cron.ts).
The payload is rendered as `formatLeaderboardEmbed(leaderboard,
webhook.roleId)` — the stored `joinCode` is not passed. -/
def processLbWebhook (args : CliArgs) (env : Env) (lb : AocLeaderboard)
    (acc : RunState × Stats) (w : Webhook) : RunState × Stats :=
  let payload := formatLeaderboardEmbed lb w.roleId none env.nowIso
  let st := { acc.1 with renderedLb := acc.1.renderedLb ++ [payload] }
  if args.dryRun then
    (st, { acc.2 with success := acc.2.success + 1 })
  else
    let result := sendDiscordWebhook (env.deliver w.discordWebhookUrl payload)
    let st := { st with sentLb := st.sentLb ++ [(w.discordWebhookUrl, payload)] }
    handleResult args.dryRun st acc.2 w result "Leaderboard update sent successfully"

/-- One iteration of the per-leaderboard group loop of `main`: fetch via
`getLeaderboard`; on error log a fetch failure for every subscription of the
group (outside dry-run) and count an error each; on success run the webhook
loop. -/
def processGroup (args : CliArgs) (env : Env) (acc : RunState × Stats)
    (group : String × List Webhook) : RunState × Stats :=
  let fetched := getLeaderboard args env acc.1.cache group.1
  let st := { acc.1 with cache := fetched.2.1 }
  match fetched.1 with
  | .error e =>
      (group.2.foldl (fun st w =>
          if args.dryRun then st
          else createLog st (some w.id) "error" ("Failed to fetch leaderboard: " ++ e)) st,
       { acc.2 with errors := acc.2.errors + group.2.length })
  | .ok lb => group.2.foldl (processLbWebhook args env lb) (st, acc.2)

/-- The URLs in order of first occurrence: the `Map` insertion order of
`main`'s grouping. -/
def firstOccurrences (l : List String) : List String :=
  l.foldl (fun acc x => if x ∈ acc then acc else acc ++ [x]) []

/-- Group the active webhooks by leaderboard URL, in `Map` iteration order,
each group keeping the webhook order of the filtered list. -/
def groupByLeaderboard (ws : List Webhook) : List (String × List Webhook) :=
  (firstOccurrences (ws.map (fun w => w.leaderboardUrl))).map
    (fun url => (url, ws.filter (fun w => w.leaderboardUrl = url)))

/-- The `--webhook-id` / `--webhook-url` filters of `main`; `none` models the
early `return` when the requested webhook is absent. -/
def filterWebhooks (args : CliArgs) (ws : List Webhook) : Option (List Webhook) :=
  let ws1 := match args.webhookId with
    | some wid => ws.filter (fun w => w.id = wid)
    | none => ws
  if args.webhookId.isSome && ws1.isEmpty then none
  else
    let ws2 := match args.webhookUrl with
      | some u => ws1.filter (fun w => w.discordWebhookUrl = u)
      | none => ws1
    if args.webhookUrl.isSome && ws2.isEmpty then none
    else some ws2

structure RunResult where
  state : RunState
  puzzleStats : Stats
  lbStats : Stats
  puzzleRan : Bool
  deriving DecidableEq, Repr

/-- `main` (scripts/cron.ts), the dispatch run (the standalone `--test-url`
test mode bypasses the store entirely and is not part of the dispatch flow):
resolve the time window with CLI overrides (a day override implies December),
load and filter the webhooks, run the puzzle pass when in season or forced,
select the webhooks active for the current hour, and process each leaderboard
group in turn.  The two early exits after the puzzle pass (nothing to process
at all, and puzzle-only) both return without leaderboard processing and are
modelled by the single `activeWebhooks.isEmpty` branch. -/
def mainRun (args : CliArgs) (env : Env) (st0 : RunState) : RunResult :=
  let currentHour := args.hour.getD env.hour
  let day := args.day.getD env.day
  let month := if args.day.isSome then (12 : Int) else env.month
  let year := env.year
  let isDuringAoc := args.forceAoc || isAocSeason month day
  match filterWebhooks args st0.webhooks with
  | none =>
      { state := st0, puzzleStats := Stats.zero, lbStats := Stats.zero
        puzzleRan := false }
  | some allWebhooks =>
      let afterPuzzle :=
        if isDuringAoc then
          sendPuzzleNotifications args env allWebhooks currentHour day year st0
        else (st0, Stats.zero)
      let activeWebhooks := allWebhooks.filter (fun w => isActiveForHour w currentHour)
      if activeWebhooks.isEmpty then
        { state := afterPuzzle.1, puzzleStats := afterPuzzle.2
          lbStats := Stats.zero, puzzleRan := isDuringAoc }
      else
        let processed := (groupByLeaderboard activeWebhooks).foldl
          (processGroup args env) (afterPuzzle.1, Stats.zero)
        { state := processed.1, puzzleStats := afterPuzzle.2
          lbStats := processed.2, puzzleRan := isDuringAoc }

/-! Lemmas about outcome handling. -/

/-- Helper: a failed Discord delivery always carries a non-empty error
message. -/
theorem sendDiscordWebhook_failure_error (o : FetchOutcome)
    (h : (sendDiscordWebhook o).success = false) :
    ∃ m, (sendDiscordWebhook o).error = some m ∧ m ≠ "" := by
  rcases sendDiscordWebhook_cases o with hc | hc | hc
  · rw [hc.1.1] at h
    exact absurd h (by decide)
  · exact hc.1.2.2
  · exact hc.1.2.2

/-- Helper: the non-dry-run behaviour of the shared outcome-handling block. -/
theorem handleResult_false_spec (st : RunState) (stats : Stats) (w : Webhook)
    (result : SendWebhookResult) (successMsg : String) :
    (result.webhookDeleted = some true →
        handleResult false st stats w result successMsg
          = (createLog { st with webhooks := st.webhooks.filter (fun x => x.id ≠ w.id) }
              (some w.id) "webhook_deleted" "Webhook was deleted from Discord",
             { stats with deleted := stats.deleted + 1 })) ∧
      (result.webhookDeleted ≠ some true → result.success = true →
        handleResult false st stats w result successMsg
          = (createLog st (some w.id) "success" successMsg,
             { stats with success := stats.success + 1 })) ∧
      (result.webhookDeleted ≠ some true → result.success = false →
        handleResult false st stats w result successMsg
          = (createLog st (some w.id) "error" (jsOr result.error "Unknown error"),
             { stats with errors := stats.errors + 1 })) := by
  refine ⟨?_, ?_, ?_⟩
  · intro h
    unfold handleResult
    rw [if_pos h, if_pos rfl]
  · intro h hs
    unfold handleResult
    rw [if_neg h, if_pos hs, if_pos rfl]
  · intro h hs
    unfold handleResult
    rw [if_neg h]
    rw [hs]
    rw [if_neg (by decide : ¬(false = true)), if_pos rfl]

/-- C2: in a non-dry-run run, each subscription of a group triggers exactly
one delivery attempt (no retry within the run), and the outcome handling —
identical in the leaderboard and puzzle passes — deletes the subscription row
and appends a `webhook_deleted` log entry on a `webhookDeleted` outcome, and
on any other failure appends an `error` log entry carrying the failure
message while leaving the subscription store unchanged. -/
theorem outcome_handling (args : CliArgs) (env : Env) (lb : AocLeaderboard)
    (st : RunState) (stats : Stats) (w : Webhook) (day year : Int)
    (hdry : args.dryRun = false) :
    (∀ payload result out,
      payload = formatLeaderboardEmbed lb w.roleId none env.nowIso →
      result = sendDiscordWebhook (env.deliver w.discordWebhookUrl payload) →
      out = processLbWebhook args env lb (st, stats) w →
      out.1.sentLb = st.sentLb ++ [(w.discordWebhookUrl, payload)] ∧
        (result.webhookDeleted = some true →
          out.1.webhooks = st.webhooks.filter (fun x => x.id ≠ w.id) ∧
            out.1.logs = st.logs ++
              [{ webhookId := some w.id, type := "webhook_deleted"
                 message := "Webhook was deleted from Discord" }]) ∧
        (result.webhookDeleted ≠ some true → result.success = false →
          out.1.webhooks = st.webhooks ∧
            ∃ m, result.error = some m ∧ m ≠ "" ∧
              out.1.logs = st.logs ++
                [{ webhookId := some w.id, type := "error", message := m }])) ∧
    (∀ payload result out,
      payload = formatPuzzleNotificationEmbed day year w.roleId env.nowIso →
      result = sendDiscordWebhook (env.deliver w.discordWebhookUrl payload) →
      out = processPuzzleWebhook args env day year (st, stats) w →
      out.1.sentPuzzle = st.sentPuzzle ++ [(w.discordWebhookUrl, payload)] ∧
        (result.webhookDeleted = some true →
          out.1.webhooks = st.webhooks.filter (fun x => x.id ≠ w.id) ∧
            out.1.logs = st.logs ++
              [{ webhookId := some w.id, type := "webhook_deleted"
                 message := "Webhook was deleted from Discord" }]) ∧
        (result.webhookDeleted ≠ some true → result.success = false →
          out.1.webhooks = st.webhooks ∧
            ∃ m, result.error = some m ∧ m ≠ "" ∧
              out.1.logs = st.logs ++
                [{ webhookId := some w.id, type := "error", message := m }])) := by
  constructor
  · intro payload result out hp hr ho
    have hstep : out = handleResult args.dryRun
        { st with renderedLb := st.renderedLb ++ [payload]
                  sentLb := st.sentLb ++ [(w.discordWebhookUrl, payload)] }
        stats w result "Leaderboard update sent successfully" := by
      rw [ho, hr, hp]
      simp only [processLbWebhook, hdry, Bool.false_eq_true, if_false]
    have hspec := handleResult_false_spec
      { st with renderedLb := st.renderedLb ++ [payload]
                sentLb := st.sentLb ++ [(w.discordWebhookUrl, payload)] }
      stats w result "Leaderboard update sent successfully"
    rw [hdry] at hstep
    refine ⟨?_, ?_, ?_⟩
    · by_cases hdel : result.webhookDeleted = some true
      · rw [hstep, (hspec.1 hdel)]
        rfl
      · by_cases hsucc : result.success = true
        · rw [hstep, (hspec.2.1 hdel hsucc)]
          rfl
        · rw [hstep, (hspec.2.2 hdel (by simpa using hsucc))]
          rfl
    · intro hdel
      rw [hstep, (hspec.1 hdel)]
      exact ⟨rfl, rfl⟩
    · intro hdel hfail
      obtain ⟨m, hm, hmne⟩ : ∃ m, result.error = some m ∧ m ≠ "" := by
        rw [hr] at hfail ⊢
        exact sendDiscordWebhook_failure_error _ hfail
      rw [hstep, (hspec.2.2 hdel hfail)]
      refine ⟨rfl, m, hm, hmne, ?_⟩
      show st.logs ++ [({ webhookId := some w.id, type := "error", message := jsOr result.error "Unknown error" } : LogEntry)] = _
      rw [hm]
      simp [jsOr, hmne]
  · intro payload result out hp hr ho
    have hstep : out = handleResult args.dryRun
        { st with renderedPuzzle := st.renderedPuzzle ++ [payload]
                  sentPuzzle := st.sentPuzzle ++ [(w.discordWebhookUrl, payload)] }
        stats w result ("Day " ++ toString day ++ " puzzle notification sent") := by
      rw [ho, hr, hp]
      simp only [processPuzzleWebhook, hdry, Bool.false_eq_true, if_false]
    have hspec := handleResult_false_spec
      { st with renderedPuzzle := st.renderedPuzzle ++ [payload]
                sentPuzzle := st.sentPuzzle ++ [(w.discordWebhookUrl, payload)] }
      stats w result ("Day " ++ toString day ++ " puzzle notification sent")
    rw [hdry] at hstep
    refine ⟨?_, ?_, ?_⟩
    · by_cases hdel : result.webhookDeleted = some true
      · rw [hstep, (hspec.1 hdel)]
        rfl
      · by_cases hsucc : result.success = true
        · rw [hstep, (hspec.2.1 hdel hsucc)]
          rfl
        · rw [hstep, (hspec.2.2 hdel (by simpa using hsucc))]
          rfl
    · intro hdel
      rw [hstep, (hspec.1 hdel)]
      exact ⟨rfl, rfl⟩
    · intro hdel hfail
      obtain ⟨m, hm, hmne⟩ : ∃ m, result.error = some m ∧ m ≠ "" := by
        rw [hr] at hfail ⊢
        exact sendDiscordWebhook_failure_error _ hfail
      rw [hstep, (hspec.2.2 hdel hfail)]
      refine ⟨rfl, m, hm, hmne, ?_⟩
      show st.logs ++ [({ webhookId := some w.id, type := "error", message := jsOr result.error "Unknown error" } : LogEntry)] = _
      rw [hm]
      simp [jsOr, hmne]

/-- A subscription fixture used by the witnesses. -/
def exWebhook : Webhook :=
  { id := "w1"
    discordWebhookUrl := "https://discord.com/api/webhooks/1/token"
    roleId := none
    hours := [18]
    leaderboardUrl := exUrl
    joinCode := none
    puzzleNotificationHour := some 0 }

/-- A store holding the single fixture subscription, with empty cache and
log. -/
def exState0 : RunState :=
  { webhooks := [exWebhook], cache := [], logs := []
    sentPuzzle := [], sentLb := [], renderedPuzzle := [], renderedLb := [] }

/-! Frame lemmas: which parts of the run state each step can touch. -/

/-- Helper: outcome handling only ever touches the subscription table and the
audit log. -/
theorem handleResult_state (dryRun : Bool) (st : RunState) (stats : Stats)
    (w : Webhook) (result : SendWebhookResult) (msg : String) :
    ∃ wh lg, (handleResult dryRun st stats w result msg).1
      = { st with webhooks := wh
                  logs := lg } := by
  unfold handleResult
  split
  · split
    · exact ⟨_, _, rfl⟩
    · exact ⟨st.webhooks, st.logs, rfl⟩
  · split
    · split
      · exact ⟨_, _, rfl⟩
      · exact ⟨st.webhooks, st.logs, rfl⟩
    · split
      · exact ⟨_, _, rfl⟩
      · exact ⟨st.webhooks, st.logs, rfl⟩

/-- Helper: under dry-run, outcome handling is unreachable in the source (the
loop jumps to the next webhook first) and in the model leaves the state
unchanged. -/
theorem handleResult_dry (st : RunState) (stats : Stats) (w : Webhook)
    (result : SendWebhookResult) (msg : String) :
    (handleResult true st stats w result msg).1 = st := by
  unfold handleResult
  split
  · rfl
  · split
    · rfl
    · rfl

/-- Helper: one puzzle-pass iteration appends the rendered payload and only
touches webhooks, logs and the sent-instrumentation. -/
theorem processPuzzleWebhook_state (args : CliArgs) (env : Env) (day year : Int)
    (acc : RunState × Stats) (w : Webhook) :
    ∃ wh lg sp, (processPuzzleWebhook args env day year acc w).1
      = { acc.1 with
          webhooks := wh
          logs := lg
          sentPuzzle := sp
          renderedPuzzle := acc.1.renderedPuzzle ++
            [formatPuzzleNotificationEmbed day year w.roleId env.nowIso] } := by
  unfold processPuzzleWebhook
  split
  · exact ⟨acc.1.webhooks, acc.1.logs, acc.1.sentPuzzle, rfl⟩
  · obtain ⟨wh, lg, heq⟩ := handleResult_state args.dryRun
      { acc.1 with
          renderedPuzzle := acc.1.renderedPuzzle ++
            [formatPuzzleNotificationEmbed day year w.roleId env.nowIso]
          sentPuzzle := acc.1.sentPuzzle ++
            [(w.discordWebhookUrl, formatPuzzleNotificationEmbed day year w.roleId env.nowIso)] }
      acc.2 w
      (sendDiscordWebhook (env.deliver w.discordWebhookUrl
        (formatPuzzleNotificationEmbed day year w.roleId env.nowIso)))
      ("Day " ++ toString day ++ " puzzle notification sent")
    exact ⟨wh, lg, acc.1.sentPuzzle ++
      [(w.discordWebhookUrl, formatPuzzleNotificationEmbed day year w.roleId env.nowIso)],
      heq.trans rfl⟩

/-- Helper: one leaderboard-pass iteration appends the rendered payload and
only touches webhooks, logs and the sent-instrumentation. -/
theorem processLbWebhook_state (args : CliArgs) (env : Env) (lb : AocLeaderboard)
    (acc : RunState × Stats) (w : Webhook) :
    ∃ wh lg sl, (processLbWebhook args env lb acc w).1
      = { acc.1 with
          webhooks := wh
          logs := lg
          sentLb := sl
          renderedLb := acc.1.renderedLb ++
            [formatLeaderboardEmbed lb w.roleId none env.nowIso] } := by
  unfold processLbWebhook
  split
  · exact ⟨acc.1.webhooks, acc.1.logs, acc.1.sentLb, rfl⟩
  · obtain ⟨wh, lg, heq⟩ := handleResult_state args.dryRun
      { acc.1 with
          renderedLb := acc.1.renderedLb ++
            [formatLeaderboardEmbed lb w.roleId none env.nowIso]
          sentLb := acc.1.sentLb ++
            [(w.discordWebhookUrl, formatLeaderboardEmbed lb w.roleId none env.nowIso)] }
      acc.2 w
      (sendDiscordWebhook (env.deliver w.discordWebhookUrl
        (formatLeaderboardEmbed lb w.roleId none env.nowIso)))
      "Leaderboard update sent successfully"
    exact ⟨wh, lg, acc.1.sentLb ++
      [(w.discordWebhookUrl, formatLeaderboardEmbed lb w.roleId none env.nowIso)],
      heq.trans rfl⟩

/-- Helper: the puzzle pass renders one payload per selected webhook, in
order, and only touches webhooks, logs and the sent-instrumentation. -/
theorem puzzleFold_state (args : CliArgs) (env : Env) (day year : Int) :
    ∀ (ws : List Webhook) (acc : RunState × Stats),
      ∃ wh lg sp, ((ws.foldl (processPuzzleWebhook args env day year) acc).1)
        = { acc.1 with
            webhooks := wh
            logs := lg
            sentPuzzle := sp
            renderedPuzzle := acc.1.renderedPuzzle ++
              ws.map (fun w => formatPuzzleNotificationEmbed day year w.roleId env.nowIso) } := by
  intro ws
  induction ws with
  | nil =>
      intro acc
      refine ⟨acc.1.webhooks, acc.1.logs, acc.1.sentPuzzle, ?_⟩
      simp only [List.foldl_nil, List.map_nil, List.append_nil]
  | cons w ws ih =>
      intro acc
      obtain ⟨wh1, lg1, sp1, h1⟩ := processPuzzleWebhook_state args env day year acc w
      obtain ⟨wh2, lg2, sp2, h2⟩ := ih (processPuzzleWebhook args env day year acc w)
      refine ⟨wh2, lg2, sp2, ?_⟩
      rw [List.foldl_cons, h2, h1]
      show ({ acc.1 with
        webhooks := wh2
        logs := lg2
        sentPuzzle := sp2
        renderedPuzzle := (acc.1.renderedPuzzle ++
          [formatPuzzleNotificationEmbed day year w.roleId env.nowIso]) ++
          ws.map (fun w => formatPuzzleNotificationEmbed day year w.roleId env.nowIso) } : RunState) = _
      rw [List.append_assoc]
      rfl

/-- Helper: the leaderboard webhook loop renders one payload per webhook of
the group, in order, and only touches webhooks, logs and the
sent-instrumentation. -/
theorem lbFold_state (args : CliArgs) (env : Env) (lb : AocLeaderboard) :
    ∀ (ws : List Webhook) (acc : RunState × Stats),
      ∃ wh lg sl, ((ws.foldl (processLbWebhook args env lb) acc).1)
        = { acc.1 with
            webhooks := wh
            logs := lg
            sentLb := sl
            renderedLb := acc.1.renderedLb ++
              ws.map (fun w => formatLeaderboardEmbed lb w.roleId none env.nowIso) } := by
  intro ws
  induction ws with
  | nil =>
      intro acc
      refine ⟨acc.1.webhooks, acc.1.logs, acc.1.sentLb, ?_⟩
      simp only [List.foldl_nil, List.map_nil, List.append_nil]
  | cons w ws ih =>
      intro acc
      obtain ⟨wh1, lg1, sl1, h1⟩ := processLbWebhook_state args env lb acc w
      obtain ⟨wh2, lg2, sl2, h2⟩ := ih (processLbWebhook args env lb acc w)
      refine ⟨wh2, lg2, sl2, ?_⟩
      rw [List.foldl_cons, h2, h1]
      show ({ acc.1 with
        webhooks := wh2
        logs := lg2
        sentLb := sl2
        renderedLb := (acc.1.renderedLb ++
          [formatLeaderboardEmbed lb w.roleId none env.nowIso]) ++
          ws.map (fun w => formatLeaderboardEmbed lb w.roleId none env.nowIso) } : RunState) = _
      rw [List.append_assoc]
      rfl

/-- Helper: the fetch-error branch of a group only appends error logs. -/
theorem fetchErrorFold_state (args : CliArgs) (e : String) :
    ∀ (ws : List Webhook) (st : RunState),
      ∃ lg, ws.foldl (fun st w =>
          if args.dryRun then st
          else createLog st (some w.id) "error" ("Failed to fetch leaderboard: " ++ e)) st
        = { st with logs := lg } := by
  intro ws
  induction ws with
  | nil =>
      intro st
      exact ⟨st.logs, rfl⟩
  | cons w ws ih =>
      intro st
      rw [List.foldl_cons]
      by_cases hdry : args.dryRun = true
      · rw [if_pos hdry]
        exact ih st
      · rw [if_neg hdry]
        obtain ⟨lg, h⟩ := ih (createLog st (some w.id) "error"
          ("Failed to fetch leaderboard: " ++ e))
        exact ⟨lg, h.trans rfl⟩

/-- Helper: under dry-run the fetch-error branch logs nothing. -/
theorem fetchErrorFold_dry (args : CliArgs) (e : String) (hdry : args.dryRun = true) :
    ∀ (ws : List Webhook) (st : RunState),
      ws.foldl (fun st w =>
          if args.dryRun then st
          else createLog st (some w.id) "error" ("Failed to fetch leaderboard: " ++ e)) st
        = st := by
  intro ws
  induction ws with
  | nil => intro st; rfl
  | cons w ws ih =>
      intro st
      rw [List.foldl_cons, if_pos hdry]
      exact ih st

/-- Helper: a group only touches webhooks, logs, the leaderboard cache and
the leaderboard-pass instrumentation — never the puzzle-pass observables. -/
theorem processGroup_state (args : CliArgs) (env : Env) (acc : RunState × Stats)
    (g : String × List Webhook) :
    ∃ wh lg sl ca rl, (processGroup args env acc g).1
      = { acc.1 with
          webhooks := wh
          logs := lg
          sentLb := sl
          cache := ca
          renderedLb := rl } := by
  cases hfetch : (getLeaderboard args env acc.1.cache g.1).1 with
  | error e =>
      simp only [processGroup, hfetch]
      obtain ⟨lg, h⟩ := fetchErrorFold_state args e g.2
        ({ acc.1 with cache := (getLeaderboard args env acc.1.cache g.1).2.1 })
      exact ⟨acc.1.webhooks, lg, acc.1.sentLb,
        (getLeaderboard args env acc.1.cache g.1).2.1, acc.1.renderedLb, h.trans rfl⟩
  | ok lb =>
      simp only [processGroup, hfetch]
      obtain ⟨wh, lg, sl, h⟩ := lbFold_state args env lb g.2
        ({ acc.1 with cache := (getLeaderboard args env acc.1.cache g.1).2.1 }, acc.2)
      exact ⟨wh, lg, sl, (getLeaderboard args env acc.1.cache g.1).2.1,
        acc.1.renderedLb ++
          g.2.map (fun w => formatLeaderboardEmbed lb w.roleId none env.nowIso),
        h.trans rfl⟩

/-- Helper: the whole group loop never touches the puzzle-pass observables. -/
theorem groupsFold_state (args : CliArgs) (env : Env) :
    ∀ (gs : List (String × List Webhook)) (acc : RunState × Stats),
      ∃ wh lg sl ca rl, ((gs.foldl (processGroup args env) acc).1)
        = { acc.1 with
            webhooks := wh
            logs := lg
            sentLb := sl
            cache := ca
            renderedLb := rl } := by
  intro gs
  induction gs with
  | nil =>
      intro acc
      exact ⟨acc.1.webhooks, acc.1.logs, acc.1.sentLb, acc.1.cache, acc.1.renderedLb, rfl⟩
  | cons g gs ih =>
      intro acc
      obtain ⟨wh1, lg1, sl1, ca1, rl1, h1⟩ := processGroup_state args env acc g
      obtain ⟨wh2, lg2, sl2, ca2, rl2, h2⟩ := ih (processGroup args env acc g)
      refine ⟨wh2, lg2, sl2, ca2, rl2, ?_⟩
      rw [List.foldl_cons, h2, h1]

/-! Dry-run frame lemmas. -/

/-- Helper: under dry-run a puzzle-pass iteration only renders. -/
theorem processPuzzleWebhook_dry (args : CliArgs) (env : Env) (day year : Int)
    (hdry : args.dryRun = true) (acc : RunState × Stats) (w : Webhook) :
    (processPuzzleWebhook args env day year acc w).1
      = { acc.1 with renderedPuzzle := acc.1.renderedPuzzle ++
                        [formatPuzzleNotificationEmbed day year w.roleId env.nowIso] } := by
  unfold processPuzzleWebhook
  rw [if_pos hdry]

/-- Helper: under dry-run a leaderboard-pass iteration only renders. -/
theorem processLbWebhook_dry (args : CliArgs) (env : Env) (lb : AocLeaderboard)
    (hdry : args.dryRun = true) (acc : RunState × Stats) (w : Webhook) :
    (processLbWebhook args env lb acc w).1
      = { acc.1 with renderedLb := acc.1.renderedLb ++
                        [formatLeaderboardEmbed lb w.roleId none env.nowIso] } := by
  unfold processLbWebhook
  rw [if_pos hdry]

/-- Helper: under dry-run the puzzle pass only renders. -/
theorem puzzleFold_dry (args : CliArgs) (env : Env) (day year : Int)
    (hdry : args.dryRun = true) :
    ∀ (ws : List Webhook) (acc : RunState × Stats),
      ((ws.foldl (processPuzzleWebhook args env day year) acc).1)
        = { acc.1 with renderedPuzzle := acc.1.renderedPuzzle ++
                          ws.map (fun w => formatPuzzleNotificationEmbed day year w.roleId env.nowIso) } := by
  intro ws
  induction ws with
  | nil =>
      intro acc
      simp only [List.foldl_nil, List.map_nil, List.append_nil]
  | cons w ws ih =>
      intro acc
      rw [List.foldl_cons, ih, processPuzzleWebhook_dry args env day year hdry acc w]
      show ({ acc.1 with renderedPuzzle := (acc.1.renderedPuzzle ++
                            [formatPuzzleNotificationEmbed day year w.roleId env.nowIso]) ++
                            ws.map (fun w => formatPuzzleNotificationEmbed day year w.roleId env.nowIso) } : RunState) = _
      rw [List.append_assoc]
      rfl

/-- Helper: under dry-run the leaderboard webhook loop only renders. -/
theorem lbFold_dry (args : CliArgs) (env : Env) (lb : AocLeaderboard)
    (hdry : args.dryRun = true) :
    ∀ (ws : List Webhook) (acc : RunState × Stats),
      ((ws.foldl (processLbWebhook args env lb) acc).1)
        = { acc.1 with renderedLb := acc.1.renderedLb ++
                          ws.map (fun w => formatLeaderboardEmbed lb w.roleId none env.nowIso) } := by
  intro ws
  induction ws with
  | nil =>
      intro acc
      simp only [List.foldl_nil, List.map_nil, List.append_nil]
  | cons w ws ih =>
      intro acc
      rw [List.foldl_cons, ih, processLbWebhook_dry args env lb hdry acc w]
      show ({ acc.1 with renderedLb := (acc.1.renderedLb ++
                            [formatLeaderboardEmbed lb w.roleId none env.nowIso]) ++
                            ws.map (fun w => formatLeaderboardEmbed lb w.roleId none env.nowIso) } : RunState) = _
      rw [List.append_assoc]
      rfl

/-- Helper: under dry-run a group only refreshes the cache and renders. -/
theorem processGroup_dry (args : CliArgs) (env : Env) (hdry : args.dryRun = true)
    (acc : RunState × Stats) (g : String × List Webhook) :
    ∃ ca rl, (processGroup args env acc g).1
      = { acc.1 with
          cache := ca
          renderedLb := rl } := by
  cases hfetch : (getLeaderboard args env acc.1.cache g.1).1 with
  | error e =>
      simp only [processGroup, hfetch]
      rw [fetchErrorFold_dry args e hdry g.2]
      exact ⟨(getLeaderboard args env acc.1.cache g.1).2.1, acc.1.renderedLb, rfl⟩
  | ok lb =>
      simp only [processGroup, hfetch]
      rw [lbFold_dry args env lb hdry g.2]
      exact ⟨(getLeaderboard args env acc.1.cache g.1).2.1,
        acc.1.renderedLb ++
          g.2.map (fun w => formatLeaderboardEmbed lb w.roleId none env.nowIso), rfl⟩

/-- Helper: under dry-run the whole group loop only refreshes caches and
renders. -/
theorem groupsFold_dry (args : CliArgs) (env : Env) (hdry : args.dryRun = true) :
    ∀ (gs : List (String × List Webhook)) (acc : RunState × Stats),
      ∃ ca rl, ((gs.foldl (processGroup args env) acc).1)
        = { acc.1 with
            cache := ca
            renderedLb := rl } := by
  intro gs
  induction gs with
  | nil =>
      intro acc
      exact ⟨acc.1.cache, acc.1.renderedLb, rfl⟩
  | cons g gs ih =>
      intro acc
      obtain ⟨ca1, rl1, h1⟩ := processGroup_dry args env hdry acc g
      obtain ⟨ca2, rl2, h2⟩ := ih (processGroup args env acc g)
      refine ⟨ca2, rl2, ?_⟩
      rw [List.foldl_cons, h2, h1]

/-- Helper: the puzzle pass of a dry run only renders. -/
theorem sendPuzzleNotifications_dry (args : CliArgs) (env : Env)
    (hdry : args.dryRun = true) (allWebhooks : List Webhook)
    (currentHour day year : Int) (st : RunState) :
    (sendPuzzleNotifications args env allWebhooks currentHour day year st).1
      = { st with renderedPuzzle := st.renderedPuzzle ++
                      (allWebhooks.filter (fun w =>
                        w.puzzleNotificationHour = some currentHour)).map
                        (fun w => formatPuzzleNotificationEmbed day year w.roleId env.nowIso) } := by
  unfold sendPuzzleNotifications
  exact puzzleFold_dry args env day year hdry _ _

/-- Helper: a dry run leaves everything but the cache and the rendered
payloads untouched. -/
theorem mainRun_dry_state (args : CliArgs) (env : Env) (st0 : RunState)
    (hdry : args.dryRun = true) :
    ∃ ca rp rl, (mainRun args env st0).state
      = { st0 with
          cache := ca
          renderedPuzzle := rp
          renderedLb := rl } := by
  cases hfw : filterWebhooks args st0.webhooks with
  | none =>
      simp only [mainRun, hfw]
      exact ⟨st0.cache, st0.renderedPuzzle, st0.renderedLb, rfl⟩
  | some allWebhooks =>
      simp only [mainRun, hfw]
      by_cases hseason : (args.forceAoc
          || isAocSeason (if args.day.isSome then (12 : Int) else env.month)
            (args.day.getD env.day)) = true
      · rw [if_pos hseason]
        split
        · rw [sendPuzzleNotifications_dry args env hdry]
          exact ⟨st0.cache, _, st0.renderedLb, rfl⟩
        · obtain ⟨ca, rl, h⟩ := groupsFold_dry args env hdry
            (groupByLeaderboard (allWebhooks.filter
              (fun w => isActiveForHour w (args.hour.getD env.hour))))
            ((sendPuzzleNotifications args env allWebhooks
              (args.hour.getD env.hour) (args.day.getD env.day) env.year st0).1, Stats.zero)
          rw [h, sendPuzzleNotifications_dry args env hdry]
          exact ⟨ca, _, rl, rfl⟩
      · rw [if_neg hseason]
        split
        · exact ⟨st0.cache, st0.renderedPuzzle, st0.renderedLb, rfl⟩
        · obtain ⟨ca, rl, h⟩ := groupsFold_dry args env hdry
            (groupByLeaderboard (allWebhooks.filter
              (fun w => isActiveForHour w (args.hour.getD env.hour))))
            (st0, Stats.zero)
          rw [h]
          exact ⟨ca, st0.renderedPuzzle, rl, rfl⟩

/-- C6: a dry run deletes no subscription and sends nothing to any
destination — the store, the audit log and both sent-message lists are
exactly as before the run (in particular a subscription whose destination
would return HTTP 404 is still present) — while rendering still occurs:
each processed webhook still gets its payload rendered and recorded. -/
theorem dry_run_no_side_effects (args : CliArgs) (env : Env) (st0 : RunState)
    (hdry : args.dryRun = true) :
    (mainRun args env st0).state.webhooks = st0.webhooks ∧
      (mainRun args env st0).state.logs = st0.logs ∧
      (mainRun args env st0).state.sentPuzzle = st0.sentPuzzle ∧
      (mainRun args env st0).state.sentLb = st0.sentLb ∧
      (∀ lb acc w, (processLbWebhook args env lb acc w).1.renderedLb
          = acc.1.renderedLb ++ [formatLeaderboardEmbed lb w.roleId none env.nowIso]) ∧
      (∀ day year acc w, (processPuzzleWebhook args env day year acc w).1.renderedPuzzle
          = acc.1.renderedPuzzle ++
            [formatPuzzleNotificationEmbed day year w.roleId env.nowIso]) := by
  obtain ⟨ca, rp, rl, heq⟩ := mainRun_dry_state args env st0 hdry
  rw [heq]
  refine ⟨rfl, rfl, rfl, rfl, ?_, ?_⟩
  · intro lb acc w
    rw [processLbWebhook_dry args env lb hdry acc w]
  · intro day year acc w
    rw [processPuzzleWebhook_dry args env day year hdry acc w]

/-- Witness for C6: with dry-run set and a destination that would return 404,
the subscription is still in the store after the run. -/
theorem dry_run_no_side_effects_witness :
    ({ exArgs with dryRun := true } : CliArgs).dryRun = true ∧
      (mainRun { exArgs with dryRun := true } exEnv404 exState0).state.webhooks
        = exState0.webhooks :=
  ⟨rfl, (dry_run_no_side_effects { exArgs with dryRun := true } exEnv404 exState0 rfl).1⟩

/-- Witness for C2: against a destination returning HTTP 404, the processed
subscription is deleted from the store. -/
theorem outcome_handling_witness :
    exArgs.dryRun = false ∧
      (sendDiscordWebhook (exEnv404.deliver exWebhook.discordWebhookUrl
          (formatLeaderboardEmbed exLeaderboard exWebhook.roleId none exEnv404.nowIso))).webhookDeleted
        = some true ∧
      (processLbWebhook exArgs exEnv404 exLeaderboard (exState0, Stats.zero) exWebhook).1.webhooks
        = exState0.webhooks.filter (fun x => x.id ≠ exWebhook.id) :=
  ⟨rfl, rfl,
    (((outcome_handling exArgs exEnv404 exLeaderboard exState0 Stats.zero exWebhook 5 2025 rfl).1
        (formatLeaderboardEmbed exLeaderboard exWebhook.roleId none exEnv404.nowIso)
        (sendDiscordWebhook (exEnv404.deliver exWebhook.discordWebhookUrl
          (formatLeaderboardEmbed exLeaderboard exWebhook.roleId none exEnv404.nowIso)))
        (processLbWebhook exArgs exEnv404 exLeaderboard (exState0, Stats.zero) exWebhook)
        rfl rfl rfl).2.1 rfl).1⟩

/-- Helper: with neither `--webhook-id` nor `--webhook-url`, the load step
returns the whole store. -/
theorem filterWebhooks_none_none (args : CliArgs) (ws : List Webhook)
    (hid : args.webhookId = none) (hurl : args.webhookUrl = none) :
    filterWebhooks args ws = some ws := by
  unfold filterWebhooks
  rw [hid, hurl]
  rfl

/-- Helper: the puzzle pass renders exactly one payload per webhook whose
puzzle hour matches, and only touches webhooks, logs and the
sent-instrumentation besides. -/
theorem sendPuzzleNotifications_state (args : CliArgs) (env : Env)
    (allWebhooks : List Webhook) (currentHour day year : Int) (st : RunState) :
    ∃ wh lg sp, (sendPuzzleNotifications args env allWebhooks currentHour day year st).1
      = { st with
          webhooks := wh
          logs := lg
          sentPuzzle := sp
          renderedPuzzle := st.renderedPuzzle ++
            (allWebhooks.filter (fun w =>
              w.puzzleNotificationHour = some currentHour)).map
              (fun w => formatPuzzleNotificationEmbed day year w.roleId env.nowIso) } := by
  unfold sendPuzzleNotifications
  exact puzzleFold_state args env day year _ (st, Stats.zero)

/-- C5: with no store filter, a run enters the puzzle-notification pass
exactly when `--force-aoc` is set or `isAocSeason` holds of the resolved
month and day (a day override implying December); outside that window no
puzzle payload is rendered or sent, inside it exactly the subscriptions whose
puzzle hour matches the current hour get a puzzle payload rendered; and
`isAocSeason month day` says precisely that the day lies in the inclusive
range 1-25 of month 12. -/
theorem puzzle_release_gate (args : CliArgs) (env : Env) (st0 : RunState)
    (hid : args.webhookId = none) (hurl : args.webhookUrl = none) :
    ((mainRun args env st0).puzzleRan
        = (args.forceAoc || isAocSeason (if args.day.isSome then (12 : Int) else env.month)
            (args.day.getD env.day))) ∧
      ((args.forceAoc || isAocSeason (if args.day.isSome then (12 : Int) else env.month)
          (args.day.getD env.day)) = false →
        (mainRun args env st0).state.renderedPuzzle = st0.renderedPuzzle ∧
          (mainRun args env st0).state.sentPuzzle = st0.sentPuzzle) ∧
      ((args.forceAoc || isAocSeason (if args.day.isSome then (12 : Int) else env.month)
          (args.day.getD env.day)) = true →
        (mainRun args env st0).state.renderedPuzzle = st0.renderedPuzzle ++
          (st0.webhooks.filter (fun w =>
            w.puzzleNotificationHour = some (args.hour.getD env.hour))).map
            (fun w => formatPuzzleNotificationEmbed (args.day.getD env.day) env.year
              w.roleId env.nowIso)) ∧
      (∀ m d : Int, isAocSeason m d = true ↔ (m = 12 ∧ 1 ≤ d ∧ d ≤ 25)) := by
  have hfw := filterWebhooks_none_none args st0.webhooks hid hurl
  refine ⟨?_, ?_, ?_, ?_⟩
  · simp only [mainRun, hfw]
    split
    · rfl
    · rfl
  · intro hseason
    simp only [mainRun, hfw]
    rw [hseason]
    simp only [Bool.false_eq_true, if_false]
    split
    · exact ⟨rfl, rfl⟩
    · obtain ⟨wh, lg, sl, ca, rl, h⟩ := groupsFold_state args env
        (groupByLeaderboard (st0.webhooks.filter
          (fun w => isActiveForHour w (args.hour.getD env.hour))))
        (st0, Stats.zero)
      rw [h]
      exact ⟨rfl, rfl⟩
  · intro hseason
    obtain ⟨wh, lg, sp, hpz⟩ := sendPuzzleNotifications_state args env st0.webhooks
      (args.hour.getD env.hour) (args.day.getD env.day) env.year st0
    simp only [mainRun, hfw]
    rw [if_pos hseason]
    split
    · rw [hpz]
    · obtain ⟨wh2, lg2, sl2, ca2, rl2, h2⟩ := groupsFold_state args env
        (groupByLeaderboard (st0.webhooks.filter
          (fun w => isActiveForHour w (args.hour.getD env.hour))))
        ((sendPuzzleNotifications args env st0.webhooks (args.hour.getD env.hour)
          (args.day.getD env.day) env.year st0).1, Stats.zero)
      rw [h2]
      show (sendPuzzleNotifications args env st0.webhooks (args.hour.getD env.hour)
        (args.day.getD env.day) env.year st0).1.renderedPuzzle = _
      rw [hpz]
  · intro m d
    simp only [isAocSeason, Bool.and_eq_true, beq_iff_eq, decide_eq_true_eq, ge_iff_le,
      and_assoc]

/-- Witness for C5: the gate equation at a concrete run. -/
theorem puzzle_release_gate_witness :
    exArgs.webhookId = none ∧ exArgs.webhookUrl = none ∧
      (mainRun exArgs exEnv404 exState0).puzzleRan
        = (exArgs.forceAoc
            || isAocSeason (if exArgs.day.isSome then (12 : Int) else exEnv404.month)
              (exArgs.day.getD exEnv404.day)) :=
  ⟨rfl, rfl, (puzzle_release_gate exArgs exEnv404 exState0 rfl rfl).1⟩

/-- C7: whether a subscription is selected as active for the current hour is
a pure membership test on its stored hours list, hence invariant under
permutation and duplication of the list, and equal to the test on the
deduplicated, ascending-sorted list. -/
theorem hours_matching_invariant (w : Webhook) (h : Int) (hours1 : List Int)
    (hmem : ∀ x, x ∈ hours1 ↔ x ∈ w.hours) :
    isActiveForHour { w with hours := hours1 } h = isActiveForHour w h ∧
      isActiveForHour { w with hours := w.hours.dedup.mergeSort (fun a b => a ≤ b) } h
        = isActiveForHour w h := by
  have key : ∀ (l1 l2 : List Int), (∀ x, x ∈ l1 ↔ x ∈ l2) →
      l1.contains h = l2.contains h := by
    intro l1 l2 hm
    by_cases h2 : h ∈ l2
    · have e2 : l2.contains h = true := List.elem_iff.mpr h2
      have e1 : l1.contains h = true := List.elem_iff.mpr ((hm h).mpr h2)
      rw [e1, e2]
    · have e1 : ¬(l1.contains h = true) := fun hc => h2 ((hm h).mp (List.elem_iff.mp hc))
      have e2 : ¬(l2.contains h = true) := fun hc => h2 (List.elem_iff.mp hc)
      rw [Bool.not_eq_true] at e1 e2
      rw [e1, e2]
  refine ⟨key hours1 w.hours hmem, key _ w.hours ?_⟩
  intro x
  exact Iff.trans ((List.mergeSort_perm w.hours.dedup _).mem_iff) List.mem_dedup

/-- A fixture whose stored hours list is unsorted and has a duplicate. -/
def exWebhookDup : Webhook := { exWebhook with hours := [5, 5, 3] }

/-- Witness for C7: deduplicating and reordering the stored hours does not
change the selection. -/
theorem hours_matching_invariant_witness :
    (∀ x : Int, x ∈ ([3, 5] : List Int) ↔ x ∈ exWebhookDup.hours) ∧
      isActiveForHour { exWebhookDup with hours := ([3, 5] : List Int) } 5
        = isActiveForHour exWebhookDup 5 :=
  ⟨fun x => by simp [exWebhookDup, exWebhook]; tauto,
    (hours_matching_invariant exWebhookDup 5 [3, 5]
      (fun x => by simp [exWebhookDup, exWebhook]; tauto)).1⟩

/-- A fixture subscription with a stored join code. -/
def exWebhookJoin : Webhook := { exWebhook with joinCode := some "SECRET" }

/-- C8 (code bug): the dispatch orchestrator renders the leaderboard payload
as `formatLeaderboardEmbed(leaderboard, webhook.roleId)` without passing the
stored join code, so the message it delivers for a subscription whose
`joinCode` is set carries no join-code field at all — although the formatter,
given the join code, would include it verbatim. -/
theorem cron_omits_join_code :
    exWebhookJoin.joinCode = some "SECRET" ∧
      (processLbWebhook exArgs exEnvOk exLeaderboard (exState0, Stats.zero) exWebhookJoin).1.sentLb
        = exState0.sentLb ++ [(exWebhookJoin.discordWebhookUrl,
            formatLeaderboardEmbed exLeaderboard exWebhookJoin.roleId none exEnvOk.nowIso)] ∧
      ((formatLeaderboardEmbed exLeaderboard exWebhookJoin.roleId none exEnvOk.nowIso).embeds.map
          (fun e => e.fields.map (fun f => f.name))) = [["📊 Stats"]] ∧
      ((formatLeaderboardEmbed exLeaderboard exWebhookJoin.roleId exWebhookJoin.joinCode
          exEnvOk.nowIso).embeds.map (fun e => e.fields.map (fun f => f.name)))
        = [["📊 Stats", "🔗 Join Code"]] ∧
      (∀ e ∈ (formatLeaderboardEmbed exLeaderboard exWebhookJoin.roleId exWebhookJoin.joinCode
          exEnvOk.nowIso).embeds, ∀ f ∈ e.fields,
        f.name = "🔗 Join Code" → f.value = "`SECRET`") :=
  ⟨rfl, rfl, by decide, by decide, by decide⟩

end Adventcord
